import Mathlib

/-!
Verification of the recommendation and play-next core of the streaming_video
backend (app/ml/unified_recommender.py, app/ml/collaborative_filtering.py,
app/services/play_next_service.py).

The Python code is shallowly embedded:

* Python floats are modelled as exact rationals.  The square root inside
  cosine similarity is not rational, so every pipeline takes an explicit
  square-root function as a parameter; instantiating it with a genuine
  square root gives the real semantics, and concrete test instances use a
  function that is exact on the (perfect-square) norms that occur there.
* Python `sorted(..., key=..., reverse=True)` is a stable sort; it is
  modelled by an insertion sort that keeps the original order of elements
  whose sort keys are equal.  `numpy.argsort` is modelled as the ascending
  order with ties broken by index (numpy uses an insertion sort, which is
  stable, on the small arrays that appear in every statement below).
* SQLAlchemy `.query(...).all()` results are the corresponding record
  lists of an explicit database snapshot; `.first()` is `List.find?`.
* Python dict construction is modelled by `pyDict` (update in place,
  append when the key is new), matching dict insertion-order semantics.
* Item keys ("movie_<id>", "series_<id>") stay strings; character-list
  helpers replace the byte-position based core string functions so that
  everything evaluates.
-/

namespace StreamingVideo

/-! ### Stable sorting, Python style -/

/-- Insert `x` in front of the first element `y` with `p x y`; with a
non-strict comparison `p` this is the insertion step of a stable sort. -/
def insertBy (p : α → α → Prop) [DecidableRel p] (x : α) : List α → List α
  | [] => [x]
  | y :: ys => if p x y then x :: y :: ys else y :: insertBy p x ys

/-- Stable insertion sort; with `p` the non-strict comparison in the sort
direction this has exactly the semantics of Python `sorted`. -/
def sortBy (p : α → α → Prop) [DecidableRel p] (l : List α) : List α :=
  l.foldr (insertBy p) []

theorem mem_insertBy (p : α → α → Prop) [DecidableRel p] (x : α) (l : List α) (z : α) :
    z ∈ insertBy p x l ↔ z = x ∨ z ∈ l := by
  induction l with
  | nil => simp [insertBy]
  | cons y ys ih =>
    by_cases h : p x y
    · simp [insertBy, h]
    · simp [insertBy, h, ih]; tauto

theorem insertBy_perm (p : α → α → Prop) [DecidableRel p] (x : α) (l : List α) :
    (insertBy p x l).Perm (x :: l) := by
  induction l with
  | nil => simp [insertBy]
  | cons y ys ih =>
    by_cases h : p x y
    · simp [insertBy, h]
    · simp only [insertBy, if_neg h]
      exact (ih.cons y).trans (List.Perm.swap x y ys)

theorem sortBy_perm (p : α → α → Prop) [DecidableRel p] (l : List α) :
    (sortBy p l).Perm l := by
  induction l with
  | nil => simp [sortBy]
  | cons x xs ih =>
    simp only [sortBy, List.foldr_cons]
    exact (insertBy_perm p x _).trans (ih.cons x)

theorem mem_sortBy (p : α → α → Prop) [DecidableRel p] (l : List α) (z : α) :
    z ∈ sortBy p l ↔ z ∈ l :=
  (sortBy_perm p l).mem_iff

theorem pairwise_insertBy (p : α → α → Prop) [DecidableRel p]
    (htot : ∀ a b, p a b ∨ p b a) (htrans : ∀ a b c, p a b → p b c → p a c)
    (x : α) (l : List α) (hl : l.Pairwise p) :
    (insertBy p x l).Pairwise p := by
  induction l with
  | nil => simp [insertBy]
  | cons y ys ih =>
    rcases List.pairwise_cons.mp hl with ⟨hy, hys⟩
    by_cases h : p x y
    · rw [insertBy, if_pos h]
      refine List.pairwise_cons.mpr ⟨?_, hl⟩
      intro z hz
      rcases List.mem_cons.mp hz with hz | hz
      · exact hz ▸ h
      · exact htrans x y z h (hy z hz)
    · rw [insertBy, if_neg h]
      refine List.pairwise_cons.mpr ⟨?_, ih hys⟩
      intro z hz
      rcases (mem_insertBy p x ys z).mp hz with hz | hz
      · rcases htot x y with h' | h'
        · exact absurd h' h
        · exact hz ▸ h'
      · exact hy z hz

theorem sortBy_sorted (p : α → α → Prop) [DecidableRel p]
    (htot : ∀ a b, p a b ∨ p b a) (htrans : ∀ a b c, p a b → p b c → p a c)
    (l : List α) : (sortBy p l).Pairwise p := by
  induction l with
  | nil => simp [sortBy]
  | cons x xs ih =>
    simp only [sortBy, List.foldr_cons]
    exact pairwise_insertBy p htot htrans x _ ih

/-- The comparison used by `sorted(items, key=lambda x: x[1], reverse=True)`. -/
def scoreGe {κ : Type} (a b : κ × ℚ) : Prop := b.2 ≤ a.2

instance {κ : Type} : DecidableRel (scoreGe (κ := κ)) :=
  fun a b => inferInstanceAs (Decidable (b.2 ≤ a.2))

/-- Python `sorted(pairs, key=lambda x: x[1], reverse=True)`: stable sort by
descending second component. -/
def sortScoreDesc {κ : Type} (l : List (κ × ℚ)) : List (κ × ℚ) :=
  sortBy scoreGe l

/-- Stability: sorting by descending score a list whose keys are strictly
increasing yields a list that is descending in score with ties in strictly
increasing key order. -/
theorem insertBy_scoreDesc_keyAsc {κ : Type} (ltk : κ → κ → Prop)
    (x : κ × ℚ) (l : List (κ × ℚ))
    (hR : l.Pairwise (fun a b => b.2 < a.2 ∨ (a.2 = b.2 ∧ ltk a.1 b.1)))
    (hq : l.Pairwise scoreGe)
    (hk : ∀ y ∈ l, ltk x.1 y.1) :
    (insertBy scoreGe x l).Pairwise
      (fun a b => b.2 < a.2 ∨ (a.2 = b.2 ∧ ltk a.1 b.1)) := by
  induction l with
  | nil => simp [insertBy]
  | cons y ys ih =>
    rcases List.pairwise_cons.mp hR with ⟨hRy, hRys⟩
    rcases List.pairwise_cons.mp hq with ⟨hqy, hqys⟩
    by_cases h : scoreGe x y
    · rw [insertBy, if_pos h]
      refine List.pairwise_cons.mpr ⟨?_, hR⟩
      intro z hz
      have hzle : z.2 ≤ x.2 := by
        rcases List.mem_cons.mp hz with hz | hz
        · exact hz ▸ h
        · exact le_trans (hqy z hz) h
      rcases lt_or_eq_of_le hzle with hlt | heq
      · exact Or.inl hlt
      · refine Or.inr ⟨heq.symm, ?_⟩
        rcases List.mem_cons.mp hz with hz | hz
        · exact hz ▸ hk y (List.mem_cons_self y ys)
        · exact hk z (List.mem_cons_of_mem y hz)
    · have hylt : x.2 < y.2 := lt_of_not_le h
      rw [insertBy, if_neg h]
      refine List.pairwise_cons.mpr ⟨?_, ih hRys hqys (fun z hz => hk z (List.mem_cons_of_mem y hz))⟩
      intro z hz
      rcases (mem_insertBy scoreGe x ys z).mp hz with hz | hz
      · exact Or.inl (hz ▸ hylt)
      · exact hRy z hz

theorem sortScoreDesc_keyAsc {κ : Type} (ltk : κ → κ → Prop) (l : List (κ × ℚ))
    (h : l.Pairwise (fun a b => ltk a.1 b.1)) :
    (sortScoreDesc l).Pairwise
      (fun a b => b.2 < a.2 ∨ (a.2 = b.2 ∧ ltk a.1 b.1)) := by
  induction l with
  | nil => simp [sortScoreDesc, sortBy]
  | cons x xs ih =>
    rcases List.pairwise_cons.mp h with ⟨hx, hxs⟩
    simp only [sortScoreDesc, sortBy, List.foldr_cons]
    have hq : (sortBy scoreGe xs).Pairwise scoreGe :=
      sortBy_sorted scoreGe (fun a b => le_total b.2 a.2)
        (fun a b c hab hbc => le_trans hbc hab) xs
    refine insertBy_scoreDesc_keyAsc ltk x _ (ih hxs) hq ?_
    intro y hy
    exact hx y ((mem_sortBy scoreGe xs y).mp hy)

/-! ### Character-list string helpers

Python string comparison is lexicographic on code points; `str.split` and
`str.startswith` are modelled on the underlying character list (the core
byte-position based functions do not reduce in the kernel). -/

/-- Strict lexicographic order on character lists, Python string `<`. -/
def lexLt : List Char → List Char → Prop
  | [], [] => False
  | [], _ :: _ => True
  | _ :: _, [] => False
  | a :: as, b :: bs => a < b ∨ (a = b ∧ lexLt as bs)

instance lexLt.instDec : (a b : List Char) → Decidable (lexLt a b)
  | [], [] => isFalse (fun h => h)
  | [], _ :: _ => isTrue trivial
  | _ :: _, [] => isFalse (fun h => h)
  | a :: as, b :: bs =>
    have : Decidable (lexLt as bs) := lexLt.instDec as bs
    inferInstanceAs (Decidable (a < b ∨ (a = b ∧ lexLt as bs)))

/-- Python string `<` on Lean strings. -/
def strLt (a b : String) : Prop := lexLt a.data b.data

instance : DecidableRel strLt := fun a b => inferInstanceAs (Decidable (lexLt a.data b.data))

/-- Python string `<=` on Lean strings (used for sorting keys). -/
def strLe (a b : String) : Prop := a = b ∨ strLt a b

instance : DecidableRel strLe := fun a b => inferInstanceAs (Decidable (a = b ∨ strLt a b))

theorem not_lexLt_nil : ∀ a : List Char, ¬ lexLt a []
  | [] => fun h => h
  | _ :: _ => fun h => h

theorem lexLt_trans : ∀ a b c : List Char, lexLt a b → lexLt b c → lexLt a c
  | a, [], _, hab, _ => absurd hab (not_lexLt_nil a)
  | [], _ :: _, c, _, hbc => by
    cases c with
    | nil => exact absurd hbc (not_lexLt_nil _)
    | cons z zs => trivial
  | _ :: _, _ :: _, [], _, hbc => absurd hbc (not_lexLt_nil _)
  | x :: xs, y :: ys, z :: zs, hab, hbc => by
    rcases hab with h1 | ⟨h1, h1'⟩ <;> rcases hbc with h2 | ⟨h2, h2'⟩
    · exact Or.inl (lt_trans h1 h2)
    · exact Or.inl (h2 ▸ h1)
    · exact Or.inl (h1 ▸ h2)
    · exact Or.inr ⟨h1.trans h2, lexLt_trans xs ys zs h1' h2'⟩

theorem lexLt_total : ∀ a b : List Char, lexLt a b ∨ a = b ∨ lexLt b a
  | [], [] => Or.inr (Or.inl rfl)
  | [], _ :: _ => Or.inl trivial
  | _ :: _, [] => Or.inr (Or.inr trivial)
  | x :: xs, y :: ys => by
    rcases lt_trichotomy x y with h | h | h
    · exact Or.inl (Or.inl h)
    · rcases lexLt_total xs ys with h' | h' | h'
      · exact Or.inl (Or.inr ⟨h, h'⟩)
      · exact Or.inr (Or.inl (by rw [h, h']))
      · exact Or.inr (Or.inr (Or.inr ⟨h.symm, h'⟩))
    · exact Or.inr (Or.inr (Or.inl h))

theorem lexLt_irrefl : ∀ a : List Char, ¬ lexLt a a
  | [] => fun h => h
  | x :: xs => by
    intro h
    rcases h with h | ⟨_, h⟩
    · exact lt_irrefl x h
    · exact lexLt_irrefl xs h

theorem strLe_total (a b : String) : strLe a b ∨ strLe b a := by
  rcases lexLt_total a.data b.data with h | h | h
  · exact Or.inl (Or.inr h)
  · exact Or.inl (Or.inl (String.ext h))
  · exact Or.inr (Or.inr h)

theorem strLt_trans {a b c : String} (h1 : strLt a b) (h2 : strLt b c) : strLt a c :=
  lexLt_trans a.data b.data c.data h1 h2

theorem strLt_irrefl (a : String) : ¬ strLt a a := lexLt_irrefl a.data

theorem strLe_trans {a b c : String} (h1 : strLe a b) (h2 : strLe b c) : strLe a c := by
  rcases h1 with rfl | h1
  · exact h2
  · rcases h2 with rfl | h2
    · exact Or.inr h1
    · exact Or.inr (strLt_trans h1 h2)

theorem strLe_of_ne_lt {a b : String} (h : strLe a b) (hne : a ≠ b) : strLt a b := by
  rcases h with rfl | h
  · exact absurd rfl hne
  · exact h

/-- Python `s.split(sep)` for a single-character separator, on char lists. -/
def splitOnChar (c : Char) : List Char → List (List Char)
  | [] => [[]]
  | x :: xs =>
    match splitOnChar c xs with
    | [] => [[x]]
    | h :: t => if x = c then [] :: h :: t else (x :: h) :: t

/-- Value of a decimal digit character, if it is one. -/
def digitVal (ch : Char) : Option ℕ :=
  if '0' ≤ ch ∧ ch ≤ '9' then some (ch.toNat - '0'.toNat) else none

/-- Python `int(s)` on a char list, `none` where `int` would raise. -/
def parseNatChars (l : List Char) : Option ℕ :=
  match l with
  | [] => none
  | _ => l.foldl (fun acc ch => acc.bind (fun n => (digitVal ch).map (fun d => 10 * n + d)))
      (some 0)

/-- Embeds `int(key.split("_")[1])` from the Python sources, with 0 for the cases
where `int` would raise (never hit on the well-formed keys the code builds). -/
def parseId (key : String) : ℕ :=
  (parseNatChars ((splitOnChar '_' key.data).getD 1 [])).getD 0

/-- Python `key.startswith(p)`. -/
def startsWith (p s : String) : Prop := p.data.IsPrefix s.data

instance : ∀ p s, Decidable (startsWith p s) :=
  fun p s => inferInstanceAs (Decidable (p.data.IsPrefix s.data))

theorem not_startsWith_movie_series (s : String) :
    ¬ (startsWith "movie_" s ∧ startsWith "series_" s) := by
  rintro ⟨⟨t1, h1⟩, ⟨t2, h2⟩⟩
  have h := h1.trans h2.symm
  have hm : "movie_".data = 'm' :: "ovie_".data := rfl
  have hs : "series_".data = 's' :: "eries_".data := rfl
  rw [hm, hs] at h
  simp at h

/-! ### Dict and set helpers -/

/-- First-occurrence deduplication with a key function and a seen set:
Python set/`setdefault` iteration order. -/
def nubFirstAux {β : Type} [DecidableEq β] (key : α → β) (seen : List β) : List α → List α
  | [] => []
  | x :: xs =>
    if key x ∈ seen then nubFirstAux key seen xs
    else x :: nubFirstAux key (key x :: seen) xs

def nubFirstBy {β : Type} [DecidableEq β] (key : α → β) (l : List α) : List α :=
  nubFirstAux key [] l

def nubFirst [DecidableEq α] (l : List α) : List α := nubFirstBy id l

theorem nubFirstAux_subset {β : Type} [DecidableEq β] (key : α → β) :
    ∀ (seen : List β) (l : List α) (z : α), z ∈ nubFirstAux key seen l → z ∈ l := by
  intro seen l
  induction l generalizing seen with
  | nil => intro z h; exact absurd h (by simp [nubFirstAux])
  | cons x xs ih =>
    intro z h
    by_cases hx : key x ∈ seen
    · simp only [nubFirstAux, if_pos hx] at h
      exact List.mem_cons_of_mem x (ih seen z h)
    · simp only [nubFirstAux, if_neg hx] at h
      rcases List.mem_cons.mp h with h | h
      · exact h ▸ List.mem_cons_self x xs
      · exact List.mem_cons_of_mem x (ih _ z h)

theorem nubFirstAux_keys_nodup {β : Type} [DecidableEq β] (key : α → β) :
    ∀ (seen : List β) (l : List α),
      ((nubFirstAux key seen l).map key).Nodup ∧
        ∀ z ∈ nubFirstAux key seen l, key z ∉ seen := by
  intro seen l
  induction l generalizing seen with
  | nil => simp [nubFirstAux]
  | cons x xs ih =>
    by_cases hx : key x ∈ seen
    · simpa only [nubFirstAux, if_pos hx] using ih seen
    · simp only [nubFirstAux, if_neg hx, List.map_cons, List.nodup_cons]
      rcases ih (key x :: seen) with ⟨ih1, ih2⟩
      refine ⟨⟨?_, ih1⟩, ?_⟩
      · intro hmem
        rcases List.mem_map.mp hmem with ⟨z, hz, hkz⟩
        exact (ih2 z hz) (hkz ▸ List.mem_cons_self _ _)
      · intro z hz
        rcases List.mem_cons.mp hz with rfl | hz
        · exact hx
        · exact fun hc => (ih2 z hz) (List.mem_cons_of_mem _ hc)

theorem nubFirstBy_keys_nodup {β : Type} [DecidableEq β] (key : α → β) (l : List α) :
    ((nubFirstBy key l).map key).Nodup :=
  (nubFirstAux_keys_nodup key [] l).1

theorem nubFirstBy_subset {β : Type} [DecidableEq β] (key : α → β) (l : List α)
    (z : α) (h : z ∈ nubFirstBy key l) : z ∈ l :=
  nubFirstAux_subset key [] l z h

/-- pandas `drop_duplicates(subset=key, keep="last")`: keep, in original
order, only the last occurrence of every key. -/
def keepLastBy {β : Type} [DecidableEq β] (key : α → β) (l : List α) : List α :=
  (nubFirstBy key l.reverse).reverse

theorem keepLastBy_keys_nodup {β : Type} [DecidableEq β] (key : α → β) (l : List α) :
    ((keepLastBy key l).map key).Nodup := by
  unfold keepLastBy
  rw [List.map_reverse, List.nodup_reverse]
  exact nubFirstBy_keys_nodup key l.reverse

/-- Python dict update: replace the value at the first occurrence of the key,
keeping its position; append when the key is new. -/
def dictUpsert {β γ : Type} [DecidableEq β] (d : List (β × γ)) (k : β) (v : γ) : List (β × γ) :=
  if d.any (fun p => decide (p.1 = k)) then
    d.map (fun p => if p.1 = k then (k, v) else p)
  else d ++ [(k, v)]

/-- Build a Python dict from an association list (later bindings overwrite,
insertion order preserved). -/
def pyDict {β γ : Type} [DecidableEq β] (l : List (β × γ)) : List (β × γ) :=
  l.foldl (fun d p => dictUpsert d p.1 p.2) []

theorem foldl_dictUpsert_eq {β γ : Type} [DecidableEq β] (l : List (β × γ)) :
    ∀ acc : List (β × γ), (l.map Prod.fst).Nodup →
      (∀ p ∈ acc, p.1 ∉ l.map Prod.fst) →
      l.foldl (fun d p => dictUpsert d p.1 p.2) acc = acc ++ l := by
  induction l with
  | nil => intro acc _ _; simp
  | cons x xs ih =>
    intro acc hl hdisj
    rw [List.map_cons, List.nodup_cons] at hl
    obtain ⟨hx, hxs⟩ := hl
    have hup : dictUpsert acc x.1 x.2 = acc ++ [x] := by
      unfold dictUpsert
      rw [if_neg]
      intro hany
      simp only [List.any_eq_true, decide_eq_true_eq] at hany
      obtain ⟨p, hp, hpk⟩ := hany
      exact hdisj p hp (by simp [hpk])
    rw [List.foldl_cons, hup, ih (acc ++ [x]) hxs ?_]
    · simp
    · intro p hp
      rcases List.mem_append.mp hp with hp | hp
      · intro hc
        exact hdisj p hp (by simp [hc])
      · simp only [List.mem_singleton] at hp
        subst hp
        exact hx

theorem pyDict_eq_self {β γ : Type} [DecidableEq β] (l : List (β × γ))
    (h : (l.map Prod.fst).Nodup) : pyDict l = l := by
  simpa [pyDict] using foldl_dictUpsert_eq l [] h (by simp)

/-! ### Numeric helpers -/

/-- Average of a list of rationals (0 on the empty list; the code only
averages nonempty groups). -/
def avgQ (l : List ℚ) : ℚ := l.sum / (l.length : ℚ)

/-- Round half to even at the last integer digit, Python `round(x)` on an
exact rational (the binary-float representation error of CPython floats is
abstracted away). -/
def pyRound (q : ℚ) : ℤ :=
  if q - (⌊q⌋ : ℚ) < 1/2 then ⌊q⌋
  else if 1/2 < q - (⌊q⌋ : ℚ) then ⌊q⌋ + 1
  else if 2 ∣ ⌊q⌋ then ⌊q⌋ else ⌊q⌋ + 1

/-- Python `round(x, 3)`. -/
def round3 (q : ℚ) : ℚ := (pyRound (q * 1000) : ℚ) / 1000

theorem round3_intMul (q : ℚ) (n : ℤ) (h : q * 1000 = (n : ℚ)) : round3 q = q := by
  unfold round3 pyRound
  rw [h, Int.floor_intCast, sub_self, if_pos (by norm_num)]
  have h1000 : (1000 : ℚ) ≠ 0 := by norm_num
  field_simp
  linarith [h]

/-! ### Data model (app/models) -/

/-- app.models.movie.Movie, restricted to the columns the recommendation
core reads; `genres` is the list of genre names of the association table. -/
structure Movie where
  id : ℕ
  title : String
  status : String
  poster_url : Option String
  view_count : ℕ
  description : Option String
  director : Option String
  cast : Option String
  genres : List String
deriving DecidableEq

/-- app.models.series.Series (no genre link exists for series). -/
structure Series where
  id : ℕ
  title : String
  status : String
  poster_url : Option String
  description : Option String
  director : Option String
  cast : Option String
deriving DecidableEq

structure Season where
  id : ℕ
  series_id : ℕ
  season_number : ℕ
deriving DecidableEq

structure Episode where
  id : ℕ
  season_id : ℕ
  episode_number : ℕ
  title : String
  status : String
deriving DecidableEq

structure WatchHistory where
  user_id : ℕ
  movie_id : ℕ
  watch_percentage : ℚ
deriving DecidableEq

structure MovieRating where
  user_id : ℕ
  movie_id : ℕ
  rating : ℚ
deriving DecidableEq

structure EpisodeWatchHistory where
  user_id : ℕ
  episode_id : ℕ
  watch_percentage : ℚ
deriving DecidableEq

structure SeriesRating where
  user_id : ℕ
  series_id : ℕ
  rating : ℚ
deriving DecidableEq

/-- A database snapshot: the record lists the `.query(...).all()` calls
return, in table order. -/
structure DB where
  movies : List Movie
  series : List Series
  seasons : List Season
  episodes : List Episode
  watchHistory : List WatchHistory
  movieRatings : List MovieRating
  episodeWatch : List EpisodeWatchHistory
  seriesRatings : List SeriesRating
deriving DecidableEq

/-! ### Cosine similarity over exact rationals -/

def dotQ (v w : List ℚ) : ℚ := (List.zipWith (· * ·) v w).sum

/-- sklearn `cosine_similarity` of two rows: dot product over the product of
norms, 0 for a zero-norm row.  The square root is a parameter `sq`; with a
genuine square root this is the real semantics, and the concrete instances
below use a function that is exact on the perfect squares that occur. -/
def cosSim (sq : ℚ → ℚ) (v w : List ℚ) : ℚ :=
  if sq (dotQ v v) * sq (dotQ w w) = 0 then 0
  else dotQ v w / (sq (dotQ v v) * sq (dotQ w w))

/-- Exact square root on the perfect squares used by the concrete database
snapshots below (a legitimate instantiation of the `sq` parameter there,
where only these radicands occur). -/
def tableSqrt (q : ℚ) : ℚ :=
  if q = 0 then 0 else if q = 1 then 1 else if q = 4 then 2 else if q = 9 then 3
  else if q = 16 then 4 else if q = 25 then 5 else if q = 36 then 6
  else if q = 81 then 9 else if q = 100 then 10 else 0

/-! ### app/ml/unified_recommender.py: `_implicit_rating` -/

/-- Embeds `_implicit_rating`: step function from watch percentage to 1..5. -/
def implicitRating (watch_pct : ℚ) : ℚ :=
  if 90 ≤ watch_pct then 5
  else if 75 ≤ watch_pct then 4
  else if 50 ≤ watch_pct then 3
  else if 25 ≤ watch_pct then 2
  else 1

/-- Namespaced item keys. -/
def movieKey (i : ℕ) : String := "movie_" ++ toString i

def seriesKey (i : ℕ) : String := "series_" ++ toString i

/-! ### `UnifiedCollaborativeFilter` -/

/-- The `ep_to_series` dict of `UnifiedCollaborativeFilter.build`: iterate the
episodes, resolve each season (`first()` matching row), and let later episodes
with the same id overwrite earlier ones (dict semantics). -/
def epToSeries (db : DB) (eid : ℕ) : Option ℕ :=
  ((db.episodes.filterMap (fun e =>
      (db.seasons.find? (fun s => decide (s.id = e.season_id))).map
        (fun s => (e.id, s.series_id)))).reverse.find?
    (fun p => decide (p.1 = eid))).map (fun p => p.2)

/-- The `(user, series) → watch percentages` groups of `build`, in encounter
order (Python `setdefault(...).append`); pairs whose episode does not resolve
to a series, or whose series id is falsy (0), are skipped. -/
def seriesWatchGroups (db : DB) : List ((ℕ × ℕ) × ℚ) :=
  db.episodeWatch.filterMap (fun w =>
    match epToSeries db w.episode_id with
    | some sid => if sid ≠ 0 then some ((w.user_id, sid), w.watch_percentage) else none
    | none => none)

def seriesGroupKeys (db : DB) : List (ℕ × ℕ) :=
  nubFirst ((seriesWatchGroups db).map Prod.fst)

def seriesGroupPcts (db : DB) (k : ℕ × ℕ) : List ℚ :=
  (seriesWatchGroups db).filterMap (fun p => if p.1 = k then some p.2 else none)

/-- The `rows` list of `UnifiedCollaborativeFilter.build`, in construction
order: implicit movie ratings, explicit movie ratings, implicit series
ratings, explicit series ratings. -/
def rowsFor (db : DB) : List (ℕ × String × ℚ) :=
  (db.watchHistory.map (fun wh =>
    (wh.user_id, movieKey wh.movie_id, implicitRating wh.watch_percentage)))
  ++ (db.movieRatings.map (fun mr => (mr.user_id, movieKey mr.movie_id, mr.rating)))
  ++ ((seriesGroupKeys db).map (fun k =>
    (k.1, seriesKey k.2, implicitRating (avgQ (seriesGroupPcts db k)))))
  ++ (db.seriesRatings.map (fun sr => (sr.user_id, seriesKey sr.series_id, sr.rating)))

/-- Embeds `df.drop_duplicates(subset=["user_id", "item_id"], keep="last")`. -/
def dedupRows (db : DB) : List (ℕ × String × ℚ) :=
  keepLastBy (fun r => (r.1, r.2.1)) (rowsFor db)

/-- Pivot index: the distinct user ids, ascending. -/
def matUsers (db : DB) : List ℕ :=
  sortBy (fun a b => a ≤ b) (nubFirst ((dedupRows db).map (fun r => r.1)))

/-- Pivot columns: the distinct item keys, ascending in string order. -/
def matItems (db : DB) : List String :=
  sortBy strLe (nubFirst ((dedupRows db).map (fun r => r.2.1)))

/-- One cell of the pivot table (`aggfunc` mean over the deduplicated rows,
`fill_value=0`). -/
def matVal (db : DB) (u : ℕ) (i : String) : ℚ :=
  let xs := ((dedupRows db).filter
    (fun r => decide (r.1 = u) && decide (r.2.1 = i))).map (fun r => r.2.2)
  if xs = [] then 0 else avgQ xs

def rowVec (db : DB) (u : ℕ) : List ℚ := (matItems db).map (matVal db u)

/-- Embeds `numpy.argsort`: ascending order of indices, ties by index. -/
def ltTieIdx (vals : List ℚ) (i j : ℕ) : Prop :=
  vals.getD i 0 < vals.getD j 0 ∨ (vals.getD i 0 = vals.getD j 0 ∧ i ≤ j)

instance (vals : List ℚ) : DecidableRel (ltTieIdx vals) := fun i j =>
  inferInstanceAs (Decidable (vals.getD i 0 < vals.getD j 0 ∨
    (vals.getD i 0 = vals.getD j 0 ∧ i ≤ j)))

def argsortAsc (vals : List ℚ) : List ℕ :=
  sortBy (ltTieIdx vals) (List.range vals.length)

/-- The popularity Series of `UnifiedCollaborativeFilter._popular`:
`(self.matrix > 0).sum(axis=0)`, one interaction count per pivot column
(columns ascending in item key). -/
def popCounts (db : DB) : List ℚ :=
  (matItems db).map (fun it =>
    (((matUsers db).filter (fun u => decide (0 < matVal db u it))).length : ℚ))

/-- Embeds `UnifiedCollaborativeFilter._popular`:
`popularity.sort_values(ascending=False).head(top_n)` with the count as the
returned score.  pandas computes the descending order as an ascending argsort
of the counts whose indexer is then reversed, so tied counts come out in
descending column position — that is, descending item key (the ascending
argsort is embedded with ties by index, as for the `np.argsort` calls). -/
def popularList (db : DB) (top_n : ℕ) : List (String × ℚ) :=
  (((argsortAsc (popCounts db)).reverse).take top_n).map
    (fun i => ((matItems db).getD i "", (popCounts db).getD i 0))

/-- Embeds `cosine_similarity(self.matrix)[user_idx]`: similarities between the
target user and all matrix rows, in row order. -/
def simsRow (sq : ℚ → ℚ) (db : DB) (user : ℕ) : List ℚ :=
  (matUsers db).map (fun u2 => cosSim sq (rowVec db user) (rowVec db u2))

/-- Embeds `np.argsort(user_sims)[::-1][1:21]`. -/
def similarIdx (sq : ℚ → ℚ) (db : DB) (user : ℕ) : List ℕ :=
  ((argsortAsc (simsRow sq db user)).reverse.drop 1).take 20

def simWeights (sq : ℚ → ℚ) (db : DB) (user : ℕ) : List ℚ :=
  (similarIdx sq db user).map (fun i => (simsRow sq db user).getD i 0)

/-- The scores dict of `UnifiedCollaborativeFilter.recommend`: per item, the
similarity-weighted rating of the selected neighbours divided by the weight
sum, keeping only items the target user has not rated (`user_row > 0`). -/
def collabScores (sq : ℚ → ℚ) (db : DB) (user : ℕ) : List (String × ℚ) :=
  pyDict (((matItems db).map (fun it =>
    (it, ((similarIdx sq db user).map (fun i =>
        matVal db ((matUsers db).getD i 0) it * (simsRow sq db user).getD i 0)).sum
      / (simWeights sq db user).sum))).filter
    (fun p => decide (matVal db user p.1 ≤ 0)))

/-- Embeds `UnifiedCollaborativeFilter.recommend`. -/
def collabRecommend (sq : ℚ → ℚ) (db : DB) (user : ℕ) (top_n : ℕ) : List (String × ℚ) :=
  if rowsFor db = [] then []
  else if user ∉ matUsers db then popularList db top_n
  else if (simWeights sq db user).sum = 0 then popularList db top_n
  else (sortScoreDesc (collabScores sq db user)).take top_n

/-! ### `UnifiedContentFilter`

`build` feeds the feature texts (embedded separately below) through sklearn
TfidfVectorizer; the engine methods only read the resulting `item_ids` list
and row vectors, so they are embedded as functions of that built state.
TF–IDF rows are componentwise nonnegative. -/

structure ContentState where
  item_ids : List String
  vecs : List (List ℚ)
deriving DecidableEq

/-- The `sims` row of `UnifiedContentFilter.get_similar`: cosine of the
target row (`list.index` of the key) against every row. -/
def simRowOf (sq : ℚ → ℚ) (st : ContentState) (item_key : String) : List ℚ :=
  st.vecs.map (fun w => cosSim sq (st.vecs.getD (st.item_ids.indexOf item_key) []) w)

/-- Embeds `UnifiedContentFilter.get_similar`: cosine row against every row,
`argsort()[::-1][1:top_n+1]`, keys with scores. -/
def getSimilar (sq : ℚ → ℚ) (st : ContentState) (item_key : String) (top_n : ℕ) :
    List (String × ℚ) :=
  if item_key ∉ st.item_ids then []
  else
    (((argsortAsc (simRowOf sq st item_key)).reverse.drop 1).take top_n).map
      (fun i => (st.item_ids.getD i "", (simRowOf sq st item_key).getD i 0))

/-- The `valid_indices` of `UnifiedContentFilter.recommend_for_history`. -/
def validIndices (st : ContentState) (watched_keys : List String) : List ℕ :=
  watched_keys.filterMap
    (fun k => if k ∈ st.item_ids then some (st.item_ids.indexOf k) else none)

/-- The `scores` dict of `recommend_for_history`: item key to mean cosine
similarity against the watched rows, skipping the watched keys. -/
def historyScores (sq : ℚ → ℚ) (st : ContentState) (watched_keys : List String) :
    List (String × ℚ) :=
  pyDict ((List.range st.item_ids.length).filterMap (fun j =>
    if st.item_ids.getD j "" ∈ watched_keys then none
    else some (st.item_ids.getD j "",
      (((validIndices st watched_keys).map (fun i =>
        cosSim sq (st.vecs.getD i []) (st.vecs.getD j []))).sum
          / ((validIndices st watched_keys).length : ℚ)))))

/-- Embeds `UnifiedContentFilter.recommend_for_history`: average similarity of every
item to the watched set, excluding the watched keys, top `top_n`. -/
def recommendForHistory (sq : ℚ → ℚ) (st : ContentState) (watched_keys : List String)
    (top_n : ℕ) : List (String × ℚ) :=
  if watched_keys = [] ∨ st.item_ids = [] then []
  else if validIndices st watched_keys = [] then []
  else (sortScoreDesc (historyScores sq st watched_keys)).take top_n

/-! ### `UnifiedHybridRecommender` -/

def COLLAB_WEIGHT : ℚ := 7/10

def CONTENT_WEIGHT : ℚ := 3/10

/-- Embeds `_get_watched_keys`: the movie keys of the watch history (in row order,
duplicates kept) followed by the distinct watched series keys.  Python
collects the series keys in a `set`, whose iteration order is unspecified;
it is modelled as first-encounter order, and nothing proved below depends
on that order. -/
def watchedKeys (db : DB) (user : ℕ) : List String :=
  (db.watchHistory.filter (fun wh => decide (wh.user_id = user))).map
    (fun wh => movieKey wh.movie_id)
  ++ nubFirst ((db.episodeWatch.filter (fun w => decide (w.user_id = user))).filterMap
    (fun w => (db.episodes.find? (fun e => decide (e.id = w.episode_id))).bind
      (fun e => (db.seasons.find? (fun s => decide (s.id = e.season_id))).map
        (fun s => seriesKey s.series_id))))

def watchCount (db : DB) (user : ℕ) : ℕ :=
  (db.watchHistory.filter (fun wh => decide (wh.user_id = user))).length

def epCount (db : DB) (user : ℕ) : ℕ :=
  (db.episodeWatch.filter (fun w => decide (w.user_id = user))).length

def totalWatch (db : DB) (user : ℕ) : ℕ := watchCount db user + epCount db user

/-- Cold-start branch of `UnifiedHybridRecommender.recommend`: content
recommendations, every score multiplied by `CONTENT_WEIGHT`. -/
def coldCombined (sq : ℚ → ℚ) (db : DB) (st : ContentState) (user : ℕ) (top_n : ℕ) :
    List (String × ℚ) :=
  (recommendForHistory sq st (watchedKeys db user) (top_n * 2)).map
    (fun p => (p.1, p.2 * CONTENT_WEIGHT))

/-- Warm branch: weighted sum over the union of the candidate keys of both
engines (Python iterates a `set` union; modelled as first-encounter order,
on which nothing below depends). -/
def warmCombined (sq : ℚ → ℚ) (db : DB) (st : ContentState) (user : ℕ) (top_n : ℕ) :
    List (String × ℚ) :=
  let collab := collabRecommend sq db user (top_n * 2)
  let crecs := recommendForHistory sq st (watchedKeys db user) (top_n * 2)
  (nubFirst (collab.map Prod.fst ++ crecs.map Prod.fst)).map (fun k =>
    (k, (((collab.find? (fun p => decide (p.1 = k))).map Prod.snd).getD 0) * COLLAB_WEIGHT
      + (((crecs.find? (fun p => decide (p.1 = k))).map Prod.snd).getD 0) * CONTENT_WEIGHT))

def combinedOf (sq : ℚ → ℚ) (db : DB) (st : ContentState) (user : ℕ) (top_n : ℕ) :
    List (String × ℚ) :=
  if totalWatch db user < 5 then coldCombined sq db st user top_n
  else warmCombined sq db st user top_n

def reasonOf (db : DB) (user : ℕ) : String :=
  if totalWatch db user < 5 then "Based on what you\x27ve watched"
  else "Recommended for you"

/-- One output row of `UnifiedHybridRecommender.recommend`.  `key` records
the combined-dict key the row was produced from (it equals
`"movie_" ++ toString id` resp. `"series_" ++ toString id` and is kept for
provenance); the presentation-only columns (backdrop, year, duration, genre
names, season and episode counts) are data copies the control flow never
reads and are omitted. -/
structure RecEntry where
  key : String
  id : ℕ
  title : String
  poster_url : Option String
  score : ℚ
  reason : String
deriving DecidableEq

def findReadyMovie (db : DB) (i : ℕ) : Option Movie :=
  db.movies.find? (fun m => decide (m.id = i) && decide (m.status = "ready"))

def findActiveSeries (db : DB) (i : ℕ) : Option Series :=
  db.series.find? (fun s => decide (s.id = i) && decide (s.status = "active"))

/-- One iteration of the output loop of `UnifiedHybridRecommender.recommend`:
route the key by its namespace prefix (if/elif), re-validate it against the
catalog, and append the entry to the matching list. -/
def partitionStep (db : DB) (reason : String) (k : String) (sc : ℚ)
    (ms ss : List RecEntry) : List RecEntry × List RecEntry :=
  if startsWith "movie_" k then
    match findReadyMovie db (parseId k) with
    | some m => (ms ++ [⟨k, m.id, m.title, m.poster_url, round3 sc, reason⟩], ss)
    | none => (ms, ss)
  else if startsWith "series_" k then
    match findActiveSeries db (parseId k) with
    | some s => (ms, ss ++ [⟨k, s.id, s.title, s.poster_url, round3 sc, reason⟩])
    | none => (ms, ss)
  else (ms, ss)

/-- The output loop of `UnifiedHybridRecommender.recommend`: walk the ranked
list and stop early once both lists have `top_n` entries. -/
def partitionLoop (db : DB) (reason : String) (top_n : ℕ) :
    List (String × ℚ) → List RecEntry → List RecEntry → List RecEntry × List RecEntry
  | [], ms, ss => (ms, ss)
  | (k, sc) :: rest, ms, ss =>
    let pair := partitionStep db reason k sc ms ss
    if top_n ≤ pair.1.length ∧ top_n ≤ pair.2.length then pair
    else partitionLoop db reason top_n rest pair.1 pair.2

structure RecResult where
  movies : List RecEntry
  series : List RecEntry
deriving DecidableEq

/-- Embeds `UnifiedHybridRecommender.recommend`. -/
def hybridRecommend (sq : ℚ → ℚ) (db : DB) (st : ContentState) (user : ℕ) (top_n : ℕ) :
    RecResult :=
  let pair := partitionLoop db (reasonOf db user) top_n
    (sortScoreDesc (combinedOf sq db st user top_n)) [] []
  ⟨pair.1.take top_n, pair.2.take top_n⟩

/-! ### app/ml/collaborative_filtering.py: the movie-only `CollaborativeFilter` -/

/-- The merged dataframe of `build_user_item_matrix`: implicit ratings from
the watch rows, overlaid by a left join with the explicit ratings
(`df["rating"].fillna(df["implicit_rating"])`); a watch row with several
matching rating rows is expanded by the join. -/
def classicRows (db : DB) : List (ℕ × ℕ × ℚ) :=
  if db.movieRatings = [] then
    db.watchHistory.map (fun w => (w.user_id, w.movie_id, implicitRating w.watch_percentage))
  else
    db.watchHistory.flatMap (fun w =>
      let hits := db.movieRatings.filter
        (fun r => decide (r.user_id = w.user_id) && decide (r.movie_id = w.movie_id))
      if hits = [] then [(w.user_id, w.movie_id, implicitRating w.watch_percentage)]
      else hits.map (fun r => (w.user_id, w.movie_id, r.rating)))

def cUsers (db : DB) : List ℕ :=
  sortBy (fun a b => a ≤ b) (nubFirst ((classicRows db).map (fun r => r.1)))

def cMovies (db : DB) : List ℕ :=
  sortBy (fun a b => a ≤ b) (nubFirst ((classicRows db).map (fun r => r.2.1)))

/-- Pivot cell, `aggfunc` mean, `fill_value=0` (this matrix is built without
deduplication, unlike the unified one). -/
def cVal (db : DB) (u m : ℕ) : ℚ :=
  let xs := ((classicRows db).filter
    (fun r => decide (r.1 = u) && decide (r.2.1 = m))).map (fun r => r.2.2)
  if xs = [] then 0 else avgQ xs

def cRow (db : DB) (u : ℕ) : List ℚ := (cMovies db).map (cVal db u)

/-- Embeds `_get_popular_movies`: ready movies by descending view count (the SQL
ordering leaves ties unspecified; modelled as stable), placeholder score 5. -/
def classicPopular (db : DB) (top_n : ℕ) : List (ℕ × ℚ) :=
  ((sortBy (fun a b : Movie => b.view_count ≤ a.view_count)
    (db.movies.filter (fun m => decide (m.status = "ready")))).take top_n).map
    (fun m => (m.id, (5 : ℚ)))

def cSims (sq : ℚ → ℚ) (db : DB) (user : ℕ) : List ℚ :=
  (cUsers db).map (fun u2 => cosSim sq (cRow db user) (cRow db u2))

/-- Embeds `get_similar_users`: `np.argsort(user_similarities)[::-1][1:top_k+1]`,
returned as (user id, similarity) pairs. -/
def classicSimilarUsers (sq : ℚ → ℚ) (db : DB) (user : ℕ) (top_k : ℕ) : List (ℕ × ℚ) :=
  (((argsortAsc (cSims sq db user)).reverse.drop 1).take top_k).map
    (fun i => ((cUsers db).getD i 0, (cSims sq db user).getD i 0))

/-- Python `movie_scores[movie_id] += v` with a 0 default: update in place,
append when new. -/
def upsertAdd (d : List (ℕ × ℚ)) (k : ℕ) (v : ℚ) : List (ℕ × ℚ) :=
  if d.any (fun p => decide (p.1 = k)) then
    d.map (fun p => if p.1 = k then (p.1, p.2 + v) else p)
  else d ++ [(k, v)]

/-- The `movie_scores` dict of `recommend_for_user`: for each selected
neighbour in similarity order, for each matrix column in order, accumulate
`rating * similarity` for unwatched, positively rated movies.  The dict
insertion order is the first-contributing-neighbour order. -/
def classicScores (sq : ℚ → ℚ) (db : DB) (user : ℕ) (exclude_watched : Bool) :
    List (ℕ × ℚ) :=
  let watched := (cMovies db).filter (fun m => decide (0 < cVal db user m))
  (classicSimilarUsers sq db user 20).foldl (fun acc su =>
    (cMovies db).foldl (fun acc2 mid =>
      if exclude_watched ∧ mid ∈ watched then acc2
      else if 0 < cVal db su.1 mid then upsertAdd acc2 mid (cVal db su.1 mid * su.2)
      else acc2) acc) []

/-- Embeds `CollaborativeFilter.recommend_for_user`. -/
def classicRecommend (sq : ℚ → ℚ) (db : DB) (user : ℕ) (top_n : ℕ)
    (exclude_watched : Bool) : List (ℕ × ℚ) :=
  if classicRows db = [] then classicPopular db top_n
  else if user ∉ cUsers db then classicPopular db top_n
  else if classicSimilarUsers sq db user 20 = [] then classicPopular db top_n
  else
    let total := ((classicSimilarUsers sq db user 20).map Prod.snd).sum
    let scores := classicScores sq db user exclude_watched
    let normalized := if 0 < total then scores.map (fun p => (p.1, p.2 / total)) else scores
    (sortScoreDesc normalized).take top_n

/-! ### `UnifiedContentFilter.build`: the feature texts -/

/-- Python `" ".join(l)`. -/
def joinSpace : List String → String
  | [] => ""
  | [x] => x
  | x :: xs => x ++ " " ++ joinSpace xs

/-- Python `x or ""` on an optional text column. -/
def orEmpty (o : Option String) : String := o.getD ""

/-- Movie branch of `build`:
`f"{genres} {genres} {description or ''} {director or ''} {cast or ''}"`. -/
def movieFeatureText (m : Movie) : String :=
  joinSpace m.genres ++ " " ++ joinSpace m.genres ++ " " ++ orEmpty m.description
    ++ " " ++ orEmpty m.director ++ " " ++ orEmpty m.cast

/-- Series branch of `build`:
`f"{description or ''} {director or ''} {cast or ''}"` (no genre text; the
series model has no genre link). -/
def seriesFeatureText (s : Series) : String :=
  orEmpty s.description ++ " " ++ orEmpty s.director ++ " " ++ orEmpty s.cast

/-- The `(item id, feature text)` list `build` vectorizes: ready movies then
active series. -/
def featureTexts (db : DB) : List (String × String) :=
  (db.movies.filter (fun m => decide (m.status = "ready"))).map
    (fun m => (movieKey m.id, movieFeatureText m))
  ++ (db.series.filter (fun s => decide (s.status = "active"))).map
    (fun s => (seriesKey s.id, seriesFeatureText s))

/-- The feature-text shape the spec asserts for every ready/active item
("Text construction: `genre genre description director cast`"), written out
from the spec wording for comparison with the shape the code builds. -/
def specFeatureText (genreText descText dirText castText : String) : String :=
  genreText ++ " " ++ genreText ++ " " ++ descText ++ " " ++ dirText ++ " " ++ castText

/-! ### app/services/play_next_service.py -/

/-- One element of the `items` list of a series recommendation. -/
structure SimItem where
  series_id : ℕ
  title : String
  poster_url : Option String
  score : ℚ
deriving DecidableEq

/-- The result dicts of `PlayNextService`, one constructor per `type` value;
payload fields that are plain data copies (description, duration, urls) are
omitted. -/
inductive PNResult where
  | noneRes (reason : String)
  | episodeRes (episode_id episode_number season_number : ℕ) (title reason : String)
  | seriesRecRes (reason : String) (items : List SimItem)
  | movieRes (movie_id : ℕ) (title reason : String)
  | seriesRes (series_id : ℕ) (title reason : String)
deriving DecidableEq

/-- The `"type"` field of the result dict. -/
def PNResult.rtype : PNResult → String
  | .noneRes _ => "none"
  | .episodeRes _ _ _ _ _ => "episode"
  | .seriesRecRes _ _ => "series_recommendation"
  | .movieRes _ _ _ => "movie"
  | .seriesRes _ _ _ => "series"

/-- The `"reason"` field of the result dict. -/
def PNResult.reason : PNResult → String
  | .noneRes r => r
  | .episodeRes _ _ _ _ r => r
  | .seriesRecRes r _ => r
  | .movieRes _ _ r => r
  | .seriesRes _ _ r => r

/-- The `"items"` field (empty for every type but a series recommendation). -/
def PNResult.items : PNResult → List SimItem
  | .seriesRecRes _ its => its
  | _ => []

/-- Embeds `PlayNextService._similar_series`: content neighbours of the finished
series (filtered to active series), then the blender's series entries
deduplicated against them, capped at 5. -/
def similarSeries (sq : ℚ → ℚ) (db : DB) (st : ContentState) (sid user : ℕ) :
    List SimItem :=
  let fromContent := (getSimilar sq st (seriesKey sid) 5).filterMap (fun p =>
    if startsWith "series_" p.1 then
      (findActiveSeries db (parseId p.1)).map
        (fun s => SimItem.mk s.id s.title s.poster_url (round3 p.2))
    else none)
  let recs := hybridRecommend sq db st user 3
  (recs.series.foldl (fun acc r =>
    if r.id ≠ sid ∧ acc.all (fun x => decide (x.series_id ≠ r.id)) then
      acc ++ [SimItem.mk r.id r.title r.poster_url r.score]
    else acc) fromContent).take 5

/-- The series-exhausted branch of `next_for_episode`. -/
def seriesFinale (sq : ℚ → ℚ) (db : DB) (st : ContentState) (season : Season)
    (user_id : ℕ) : PNResult :=
  .seriesRecRes
    ("You finished "
      ++ (match db.series.find? (fun s => decide (s.id = season.series_id)) with
          | some s => s.title
          | none => "this series")
      ++ "! Here\x27s what to watch next:")
    (similarSeries sq db st season.series_id user_id)

/-- Embeds `PlayNextService.next_for_episode`. -/
def nextForEpisode (sq : ℚ → ℚ) (db : DB) (st : ContentState)
    (episode_id user_id : ℕ) : PNResult :=
  match db.episodes.find? (fun e => decide (e.id = episode_id)) with
  | none => .noneRes "Episode not found"
  | some episode =>
    match db.seasons.find? (fun s => decide (s.id = episode.season_id)) with
    | none => .noneRes "Season not found"
    | some season =>
      match db.episodes.find? (fun e => decide (e.season_id = season.id)
          && decide (e.episode_number = episode.episode_number + 1)
          && decide (e.status = "ready")) with
      | some next_ep =>
        .episodeRes next_ep.id next_ep.episode_number season.season_number next_ep.title
          ("Next episode: S" ++ toString season.season_number
            ++ "E" ++ toString next_ep.episode_number)
      | none =>
        match db.seasons.find? (fun s => decide (s.series_id = season.series_id)
            && decide (s.season_number = season.season_number + 1)) with
        | some next_season =>
          match (sortBy (fun a b : Episode => a.episode_number ≤ b.episode_number)
              (db.episodes.filter (fun e => decide (e.season_id = next_season.id)
                && decide (e.status = "ready")))).head? with
          | some first_ep =>
            .episodeRes first_ep.id first_ep.episode_number next_season.season_number
              first_ep.title
              ("Next season: S" ++ toString next_season.season_number
                ++ "E" ++ toString first_ep.episode_number)
          | none => seriesFinale sq db st season user_id
        | none => seriesFinale sq db st season user_id

/-- Embeds `PlayNextService.next_for_movie`. -/
def nextForMovie (sq : ℚ → ℚ) (db : DB) (st : ContentState)
    (movie_id user_id : ℕ) : PNResult :=
  let recs := hybridRecommend sq db st user_id 5
  match recs.movies with
  | top :: _ => .movieRes top.id top.title top.reason
  | [] =>
    match recs.series with
    | top :: _ => .seriesRes top.id top.title top.reason
    | [] =>
      match (getSimilar sq st (movieKey movie_id) 5).filterMap (fun p =>
        if startsWith "movie_" p.1 then findReadyMovie db (parseId p.1) else none) with
      | m :: _ => .movieRes m.id m.title "You might also like"
      | [] => .noneRes "No recommendations available"

/-! ### Supporting lemmas: the matrix cell is the last-written rating -/

theorem filter_nubFirstAux {β : Type} [DecidableEq β] (key : α → β) (k : β) :
    ∀ (l : List α) (seen : List β),
      (nubFirstAux key seen l).filter (fun x => decide (key x = k)) =
        (if k ∈ seen then [] else
          match l.find? (fun x => decide (key x = k)) with
          | some x => [x]
          | none => []) := by
  intro l
  induction l with
  | nil =>
    intro seen
    by_cases hk : k ∈ seen <;> simp [nubFirstAux, hk]
  | cons x xs ih =>
    intro seen
    by_cases hx : key x ∈ seen
    · rw [nubFirstAux, if_pos hx, ih seen]
      by_cases hk : k ∈ seen
      · simp [hk]
      · have hne : ¬ key x = k := fun h => hk (h ▸ hx)
        rw [if_neg hk, if_neg hk, List.find?_cons_of_neg _ (by simpa using hne)]
    · rw [nubFirstAux, if_neg hx]
      by_cases hk : k ∈ seen
      · have hne : ¬ key x = k := fun h => hx (h ▸ hk)
        rw [List.filter_cons_of_neg (by simpa using hne), ih (key x :: seen),
          if_pos (List.mem_cons_of_mem _ hk), if_pos hk]
      · by_cases hxk : key x = k
        · rw [List.filter_cons_of_pos (by simpa using hxk), ih (key x :: seen),
            if_pos (hxk ▸ List.mem_cons_self _ _), if_neg hk,
            List.find?_cons_of_pos _ (by simpa using hxk)]
        · have hnotin : k ∉ key x :: seen := by
            intro hmem
            rcases List.mem_cons.mp hmem with h | h
            · exact hxk h.symm
            · exact hk h
          rw [List.filter_cons_of_neg (by simpa using hxk), ih (key x :: seen),
            if_neg hnotin, if_neg hk, List.find?_cons_of_neg _ (by simpa using hxk)]

theorem filter_keepLastBy {β : Type} [DecidableEq β] (key : α → β) (l : List α) (k : β) :
    (keepLastBy key l).filter (fun x => decide (key x = k)) =
      (match l.reverse.find? (fun x => decide (key x = k)) with
      | some x => [x]
      | none => []) := by
  unfold keepLastBy nubFirstBy
  rw [List.filter_reverse, filter_nubFirstAux key k l.reverse []]
  rw [if_neg (List.not_mem_nil k)]
  split <;> rfl

theorem matVal_eq_lastRow (db : DB) (u : ℕ) (i : String) :
    matVal db u i =
      (match (rowsFor db).reverse.find?
          (fun row => decide ((row.1, row.2.1) = (u, i))) with
      | some row => row.2.2
      | none => 0) := by
  unfold matVal dedupRows
  have hfun : (fun (row : ℕ × String × ℚ) => decide (row.1 = u) && decide (row.2.1 = i)) =
      (fun row => decide ((row.1, row.2.1) = (u, i))) := by
    funext row
    rw [← Bool.decide_and]
    simp [Prod.ext_iff]
  rw [hfun, filter_keepLastBy (fun r => (r.1, r.2.1)) (rowsFor db) (u, i)]
  cases hfind : (rowsFor db).reverse.find? (fun row => decide ((row.1, row.2.1) = (u, i))) with
  | none => simp [hfind]
  | some row => simp [hfind, avgQ]

theorem seriesKey_ne_movieKey (a b : ℕ) : seriesKey a ≠ movieKey b := by
  intro h
  have hd := congrArg String.data h
  rw [seriesKey, movieKey, String.data_append, String.data_append] at hd
  have h1 : "series_".data = 's' :: "eries_".data := by decide
  have h2 : "movie_".data = 'm' :: "ovie_".data := by decide
  rw [h1, h2] at hd
  simp only [List.cons_append, List.cons.injEq] at hd
  exact absurd hd.1 (by decide)

/-- C1: in the user-item matrix of `UnifiedCollaborativeFilter.build`, the
cell of a (user, item) pair that has an explicit rating equals that explicit
rating — whatever the watch-history rows say and in whatever order any of
the record lists arrive (the database `db` is universally quantified, so
every ordering of every record list is covered) — and the deduplicated row
list never contains two rows for the same (user, item) pair.  The uniqueness
hypotheses are the `unique_user_movie_rating` / `unique_user_series_rating`
constraints of the rating tables. -/
theorem explicit_overrides_implicit (db : DB) :
    (∀ u m r, (⟨u, m, r⟩ : MovieRating) ∈ db.movieRatings →
      ((db.movieRatings.map (fun mr => (mr.user_id, movieKey mr.movie_id))).Nodup) →
      matVal db u (movieKey m) = r)
    ∧ (∀ u s r, (⟨u, s, r⟩ : SeriesRating) ∈ db.seriesRatings →
      ((db.seriesRatings.map (fun sr => (sr.user_id, seriesKey sr.series_id))).Nodup) →
      matVal db u (seriesKey s) = r)
    ∧ ((dedupRows db).map (fun row => (row.1, row.2.1))).Nodup := by
  refine ⟨?_, ?_, keepLastBy_keys_nodup _ _⟩
  · intro u m r hmem hnd
    rw [matVal_eq_lastRow]
    have hD : (db.seriesRatings.map (fun sr =>
        (sr.user_id, seriesKey sr.series_id, sr.rating))).reverse.find?
        (fun row => decide ((row.1, row.2.1) = (u, movieKey m))) = none := by
      rw [List.find?_eq_none]
      intro x hx
      rcases List.mem_map.mp (List.mem_reverse.mp hx) with ⟨sr, _, rfl⟩
      simp only [decide_eq_true_eq]
      intro hpair
      exact seriesKey_ne_movieKey sr.series_id m (Prod.ext_iff.mp hpair).2
    have hC : (((seriesGroupKeys db).map (fun k =>
        (k.1, seriesKey k.2, implicitRating (avgQ (seriesGroupPcts db k))))).reverse.find?
        (fun row => decide ((row.1, row.2.1) = (u, movieKey m)))) = none := by
      rw [List.find?_eq_none]
      intro x hx
      rcases List.mem_map.mp (List.mem_reverse.mp hx) with ⟨k, _, rfl⟩
      simp only [decide_eq_true_eq]
      intro hpair
      exact seriesKey_ne_movieKey k.2 m (Prod.ext_iff.mp hpair).2
    have hmemB : ((u, movieKey m, r) : ℕ × String × ℚ) ∈
        (db.movieRatings.map (fun mr =>
          (mr.user_id, movieKey mr.movie_id, mr.rating))).reverse :=
      List.mem_reverse.mpr (List.mem_map.mpr ⟨⟨u, m, r⟩, hmem, rfl⟩)
    have hBsome : ((db.movieRatings.map (fun mr =>
        (mr.user_id, movieKey mr.movie_id, mr.rating))).reverse.find?
        (fun row => decide ((row.1, row.2.1) = (u, movieKey m)))).isSome :=
      List.find?_isSome.mpr ⟨_, hmemB, by simp⟩
    obtain ⟨xB, hxB⟩ := Option.isSome_iff_exists.mp hBsome
    have hxBmem := List.mem_reverse.mp (List.mem_of_find?_eq_some hxB)
    have hxBpred := List.find?_some hxB
    rcases List.mem_map.mp hxBmem with ⟨mr, hmr, rfl⟩
    simp only [decide_eq_true_eq, Prod.mk.injEq] at hxBpred
    have hrec : mr = ⟨u, m, r⟩ := by
      refine List.inj_on_of_nodup_map hnd hmr hmem ?_
      simp [hxBpred.1, hxBpred.2]
    rw [rowsFor, List.reverse_append, List.reverse_append, List.reverse_append,
      List.find?_append, List.find?_append, List.find?_append, hD, hC, hxB]
    simp [hrec]
  · intro u s r hmem hnd
    rw [matVal_eq_lastRow]
    have hmemD : ((u, seriesKey s, r) : ℕ × String × ℚ) ∈
        (db.seriesRatings.map (fun sr =>
          (sr.user_id, seriesKey sr.series_id, sr.rating))).reverse :=
      List.mem_reverse.mpr (List.mem_map.mpr ⟨⟨u, s, r⟩, hmem, rfl⟩)
    have hDsome : ((db.seriesRatings.map (fun sr =>
        (sr.user_id, seriesKey sr.series_id, sr.rating))).reverse.find?
        (fun row => decide ((row.1, row.2.1) = (u, seriesKey s)))).isSome :=
      List.find?_isSome.mpr ⟨_, hmemD, by simp⟩
    obtain ⟨xD, hxD⟩ := Option.isSome_iff_exists.mp hDsome
    have hxDmem := List.mem_reverse.mp (List.mem_of_find?_eq_some hxD)
    have hxDpred := List.find?_some hxD
    rcases List.mem_map.mp hxDmem with ⟨sr, hsr, rfl⟩
    simp only [decide_eq_true_eq, Prod.mk.injEq] at hxDpred
    have hrec : sr = ⟨u, s, r⟩ := by
      refine List.inj_on_of_nodup_map hnd hsr hmem ?_
      simp [hxDpred.1, hxDpred.2]
    rw [rowsFor, List.reverse_append, List.find?_append, hxD]
    simp [hrec]

/-! ### Sortedness of the unified collaborative output (C6) -/

theorem matItems_pairwise (db : DB) : (matItems db).Pairwise strLt := by
  unfold matItems
  have hperm := sortBy_perm strLe (nubFirst ((dedupRows db).map (fun r => r.2.1)))
  have hsorted := sortBy_sorted strLe strLe_total (fun _ _ _ => strLe_trans)
    (nubFirst ((dedupRows db).map (fun r => r.2.1)))
  have hnodup : (nubFirst ((dedupRows db).map (fun r => r.2.1))).Nodup := by
    have h := nubFirstBy_keys_nodup (id : String → String)
      ((dedupRows db).map (fun r => r.2.1))
    rwa [List.map_id] at h
  have hnd2 := hperm.nodup_iff.mpr hnodup
  exact (hsorted.and hnd2).imp (fun h => strLe_of_ne_lt h.1 h.2)

theorem collabScores_pairwise (sq : ℚ → ℚ) (db : DB) (user : ℕ) :
    (collabScores sq db user).Pairwise (fun a b => strLt a.1 b.1) := by
  unfold collabScores
  have hbase : ((((matItems db).map (fun it =>
      (it, ((similarIdx sq db user).map (fun i =>
          matVal db ((matUsers db).getD i 0) it * (simsRow sq db user).getD i 0)).sum
        / (simWeights sq db user).sum))).filter
      (fun p => decide (matVal db user p.1 ≤ 0))).Pairwise
      (fun a b => strLt a.1 b.1)) :=
    List.Pairwise.sublist (List.filter_sublist _)
      (List.pairwise_map.mpr (matItems_pairwise db))
  have hne : ∀ {a b : String}, strLt a b → a ≠ b :=
    fun h heq => strLt_irrefl _ (heq ▸ h)
  have hnodup : ((((matItems db).map (fun it =>
      (it, ((similarIdx sq db user).map (fun i =>
          matVal db ((matUsers db).getD i 0) it * (simsRow sq db user).getD i 0)).sum
        / (simWeights sq db user).sum))).filter
      (fun p => decide (matVal db user p.1 ≤ 0))).map Prod.fst).Nodup :=
    (List.pairwise_map.mpr hbase).imp hne
  rw [pyDict_eq_self _ hnodup]
  exact hbase

/-- C6 (amended): in the weighted-prediction path of
`UnifiedCollaborativeFilter.recommend` — the target user is present in the
matrix and the selected neighbour similarities have nonzero sum — the
candidate list is sorted by descending score with exact ties in ascending
item-key order, for every database snapshot, square-root function and `top_n`
(the pivot sorts the item columns ascending and Python `sorted` is stable).
The statement does not extend to the popularity fallback, where pandas
`sort_values(ascending=False)` reverses an ascending argsort so tied counts
come out in descending key order, and its analogue is false for the legacy
`CollaborativeFilter.recommend_for_user`, see the counterexample. -/
theorem collab_recommend_sorted (sq : ℚ → ℚ) (db : DB) (user top_n : ℕ)
    (hu : user ∈ matUsers db) (hs : (simWeights sq db user).sum ≠ 0) :
    (collabRecommend sq db user top_n).Pairwise
      (fun a b => b.2 < a.2 ∨ (a.2 = b.2 ∧ strLt a.1 b.1)) := by
  have hr : rowsFor db ≠ [] := by
    intro h
    unfold matUsers dedupRows at hu
    rw [h] at hu
    simp [keepLastBy, nubFirstBy, nubFirstAux, nubFirst, sortBy] at hu
  unfold collabRecommend
  rw [if_neg hr, if_neg (not_not.mpr hu), if_neg hs]
  exact List.Pairwise.sublist (List.take_sublist _ _)
    (sortScoreDesc_keyAsc strLt _ (collabScores_pairwise sq db user))

/-! ### A concrete run of the legacy collaborative filter (C6) -/

/-- Three users over movies 1, 3, 5; the 3-4-5 ratios make every cosine
similarity rational.  User 2 rates movie 5, user 3 rates movie 3, and both
end up with the same predicted score for user 1. -/
def dbC6 : DB :=
  ⟨[], [], [], [],
    [⟨1, 1, 60⟩, ⟨2, 1, 80⟩, ⟨2, 5, 60⟩, ⟨3, 1, 60⟩, ⟨3, 3, 80⟩],
    [], [], []⟩

theorem dbC6_rows : classicRows dbC6 =
    [(1, 1, 3), (2, 1, 4), (2, 5, 3), (3, 1, 3), (3, 3, 4)] := by
  norm_num [classicRows, dbC6, implicitRating]

theorem dbC6_cUsers : cUsers dbC6 = [1, 2, 3] := by
  norm_num [cUsers, dbC6_rows, nubFirst, nubFirstBy, nubFirstAux, sortBy, insertBy]

theorem dbC6_cMovies : cMovies dbC6 = [1, 3, 5] := by
  norm_num [cMovies, dbC6_rows, nubFirst, nubFirstBy, nubFirstAux, sortBy, insertBy]

theorem dbC6_row1 : cRow dbC6 1 = [3, 0, 0] := by
  norm_num [cRow, dbC6_cMovies, cVal, dbC6_rows, avgQ]

theorem dbC6_row2 : cRow dbC6 2 = [4, 0, 3] := by
  norm_num [cRow, dbC6_cMovies, cVal, dbC6_rows, avgQ]

theorem dbC6_row3 : cRow dbC6 3 = [3, 4, 0] := by
  norm_num [cRow, dbC6_cMovies, cVal, dbC6_rows, avgQ]

theorem dbC6_sims : cSims tableSqrt dbC6 1 = [1, 4/5, 3/5] := by
  norm_num [cSims, dbC6_cUsers, dbC6_row1, dbC6_row2, dbC6_row3, cosSim, dotQ, tableSqrt]

theorem dbC6_neighbors : classicSimilarUsers tableSqrt dbC6 1 20 = [(2, 4/5), (3, 3/5)] := by
  norm_num [classicSimilarUsers, dbC6_sims, dbC6_cUsers, argsortAsc, sortBy, insertBy,
    ltTieIdx, List.range_succ]

theorem dbC6_scores : classicScores tableSqrt dbC6 1 true = [(5, 12/5), (3, 12/5)] := by
  norm_num [classicScores, dbC6_neighbors, dbC6_cMovies, cVal, dbC6_rows, avgQ, upsertAdd]

theorem dbC6_result : classicRecommend tableSqrt dbC6 1 10 true = [(5, 12/7), (3, 12/7)] := by
  norm_num [classicRecommend, dbC6_rows, dbC6_cUsers, dbC6_neighbors, dbC6_scores,
    sortScoreDesc, sortBy, insertBy, scoreGe]
  simp

/-- C6 (counterexample to the claim as stated): on `dbC6` the legacy
`CollaborativeFilter.recommend_for_user` returns the tied candidates as
`[(5, 12/7), (3, 12/7)]` — equal scores in descending movie-id order, because
Python `sorted` keeps dict insertion order (first-contributing neighbour)
for ties, not ascending item id. -/
theorem classic_tie_order_counterexample :
    classicRecommend tableSqrt dbC6 1 10 true = [(5, 12/7), (3, 12/7)] ∧
    ¬ (classicRecommend tableSqrt dbC6 1 10 true).Pairwise
        (fun a b => b.2 < a.2 ∨ (a.2 = b.2 ∧ a.1 < b.1)) := by
  refine ⟨dbC6_result, ?_⟩
  rw [dbC6_result]
  intro h
  rcases List.pairwise_cons.mp h with ⟨hf, -⟩
  rcases hf (3, 12/7) (by simp) with h' | ⟨-, h'⟩
  · exact absurd h' (by norm_num)
  · exact absurd h' (by norm_num)

/-! ### A concrete warm-path run of the unified collaborative filter (C6) -/

/-- Two users over movies 1–4: user 1 watched movies 1 and 2 (implicit
ratings 3 and 4, row `[3,4,0,0]` of norm 5), user 2 watched all four movies
at 30 percent (row `[2,2,2,2]` of norm 4), giving cosine 7/10 between the two
rows and tied predicted scores for the unwatched movies 3 and 4. -/
def dbC6w : DB :=
  ⟨[], [], [], [],
    [⟨1, 1, 60⟩, ⟨1, 2, 80⟩, ⟨2, 1, 30⟩, ⟨2, 2, 30⟩, ⟨2, 3, 30⟩, ⟨2, 4, 30⟩],
    [], [], []⟩

theorem implicitRating_60 : implicitRating 60 = 3 := by norm_num [implicitRating]

theorem implicitRating_80 : implicitRating 80 = 4 := by norm_num [implicitRating]

theorem implicitRating_30 : implicitRating 30 = 2 := by norm_num [implicitRating]

theorem dbC6w_rows : rowsFor dbC6w =
    [(1, movieKey 1, 3), (1, movieKey 2, 4), (2, movieKey 1, 2),
     (2, movieKey 2, 2), (2, movieKey 3, 2), (2, movieKey 4, 2)] := by
  norm_num [rowsFor, dbC6w, seriesGroupKeys, seriesWatchGroups, epToSeries,
    nubFirst, nubFirstBy, nubFirstAux, implicitRating_60, implicitRating_80,
    implicitRating_30]

theorem dbC6w_dedup : dedupRows dbC6w =
    [(1, movieKey 1, 3), (1, movieKey 2, 4), (2, movieKey 1, 2),
     (2, movieKey 2, 2), (2, movieKey 3, 2), (2, movieKey 4, 2)] := by
  unfold dedupRows
  rw [dbC6w_rows]
  simp [keepLastBy, nubFirstBy, nubFirstAux,
    show movieKey 1 ≠ movieKey 2 from by decide,
    show movieKey 1 ≠ movieKey 3 from by decide,
    show movieKey 1 ≠ movieKey 4 from by decide,
    show movieKey 2 ≠ movieKey 1 from by decide,
    show movieKey 2 ≠ movieKey 3 from by decide,
    show movieKey 2 ≠ movieKey 4 from by decide,
    show movieKey 3 ≠ movieKey 1 from by decide,
    show movieKey 3 ≠ movieKey 2 from by decide,
    show movieKey 3 ≠ movieKey 4 from by decide,
    show movieKey 4 ≠ movieKey 1 from by decide,
    show movieKey 4 ≠ movieKey 2 from by decide,
    show movieKey 4 ≠ movieKey 3 from by decide]

theorem dbC6w_users : matUsers dbC6w = [1, 2] := by
  norm_num [matUsers, dbC6w_dedup, nubFirst, nubFirstBy, nubFirstAux, sortBy, insertBy]

theorem dbC6w_items : matItems dbC6w =
    [movieKey 1, movieKey 2, movieKey 3, movieKey 4] := by
  norm_num [matItems, dbC6w_dedup, nubFirst, nubFirstBy, nubFirstAux, sortBy, insertBy,
    show strLe (movieKey 1) (movieKey 2) from by decide,
    show strLe (movieKey 2) (movieKey 3) from by decide,
    show strLe (movieKey 3) (movieKey 4) from by decide,
    show movieKey 1 ≠ movieKey 2 from by decide,
    show movieKey 1 ≠ movieKey 3 from by decide,
    show movieKey 1 ≠ movieKey 4 from by decide,
    show movieKey 2 ≠ movieKey 1 from by decide,
    show movieKey 2 ≠ movieKey 3 from by decide,
    show movieKey 2 ≠ movieKey 4 from by decide,
    show movieKey 3 ≠ movieKey 1 from by decide,
    show movieKey 3 ≠ movieKey 2 from by decide,
    show movieKey 3 ≠ movieKey 4 from by decide,
    show movieKey 4 ≠ movieKey 1 from by decide,
    show movieKey 4 ≠ movieKey 2 from by decide,
    show movieKey 4 ≠ movieKey 3 from by decide]

theorem dbC6w_row1 : rowVec dbC6w 1 = [3, 4, 0, 0] := by
  norm_num [rowVec, dbC6w_items, matVal_eq_lastRow, dbC6w_rows,
    show movieKey 1 ≠ movieKey 2 from by decide,
    show movieKey 1 ≠ movieKey 3 from by decide,
    show movieKey 1 ≠ movieKey 4 from by decide,
    show movieKey 2 ≠ movieKey 1 from by decide,
    show movieKey 2 ≠ movieKey 3 from by decide,
    show movieKey 2 ≠ movieKey 4 from by decide]

theorem dbC6w_row2 : rowVec dbC6w 2 = [2, 2, 2, 2] := by
  norm_num [rowVec, dbC6w_items, matVal_eq_lastRow, dbC6w_rows,
    show movieKey 2 ≠ movieKey 1 from by decide,
    show movieKey 3 ≠ movieKey 1 from by decide,
    show movieKey 3 ≠ movieKey 2 from by decide,
    show movieKey 4 ≠ movieKey 1 from by decide,
    show movieKey 4 ≠ movieKey 2 from by decide,
    show movieKey 4 ≠ movieKey 3 from by decide]

theorem dbC6w_sims : simsRow tableSqrt dbC6w 1 = [1, 7/10] := by
  norm_num [simsRow, dbC6w_users, dbC6w_row1, dbC6w_row2, cosSim, dotQ, tableSqrt]

theorem dbC6w_weightSum : (simWeights tableSqrt dbC6w 1).sum = 7/10 := by
  norm_num [simWeights, similarIdx, dbC6w_sims, argsortAsc, sortBy, insertBy, ltTieIdx,
    List.range_succ]

theorem dbC6w_scores : collabScores tableSqrt dbC6w 1 =
    [(movieKey 3, 2), (movieKey 4, 2)] := by
  norm_num [collabScores, dbC6w_items, dbC6w_users, simWeights, similarIdx, dbC6w_sims,
    argsortAsc, sortBy, insertBy, ltTieIdx, List.range_succ, matVal_eq_lastRow,
    dbC6w_rows, pyDict, dictUpsert,
    show movieKey 2 ≠ movieKey 1 from by decide,
    show movieKey 3 ≠ movieKey 1 from by decide,
    show movieKey 3 ≠ movieKey 2 from by decide,
    show movieKey 4 ≠ movieKey 1 from by decide,
    show movieKey 4 ≠ movieKey 2 from by decide,
    show movieKey 4 ≠ movieKey 3 from by decide,
    show movieKey 1 ≠ movieKey 2 from by decide,
    show movieKey 1 ≠ movieKey 3 from by decide,
    show movieKey 1 ≠ movieKey 4 from by decide,
    show movieKey 2 ≠ movieKey 3 from by decide,
    show movieKey 2 ≠ movieKey 4 from by decide,
    show movieKey 3 ≠ movieKey 4 from by decide]

/-- On `dbC6w` the warm path yields a genuine tie (movies 3 and 4 both
predicted 2) and returns it in ascending key order. -/
theorem dbC6w_result : collabRecommend tableSqrt dbC6w 1 10 =
    [(movieKey 3, 2), (movieKey 4, 2)] := by
  unfold collabRecommend
  rw [if_neg (by rw [dbC6w_rows]; simp), if_neg (by rw [dbC6w_users]; simp),
    if_neg (by rw [dbC6w_weightSum]; norm_num), dbC6w_scores]
  norm_num [sortScoreDesc, sortBy, insertBy, scoreGe]

/-- C6 witness: on `dbC6w` user 1 is present in the matrix with neighbour
similarity sum 7/10 (nonzero), so the warm-path output — which ties movies 3
and 4 at predicted score 2 — is sorted by descending score with the tie in
ascending key order. -/
theorem collab_recommend_sorted_witness :
    1 ∈ matUsers dbC6w ∧ (simWeights tableSqrt dbC6w 1).sum ≠ 0 ∧
    (collabRecommend tableSqrt dbC6w 1 10).Pairwise
      (fun a b => b.2 < a.2 ∨ (a.2 = b.2 ∧ strLt a.1 b.1)) :=
  ⟨by rw [dbC6w_users]; simp,
   by rw [dbC6w_weightSum]; norm_num,
   collab_recommend_sorted tableSqrt dbC6w 1 10
     (by rw [dbC6w_users]; simp)
     (by rw [dbC6w_weightSum]; norm_num)⟩

/-- One user with one watched movie, rated explicitly as well. -/
def dbC1 : DB := ⟨[], [], [], [], [⟨1, 1, 60⟩], [⟨1, 1, 4⟩], [], []⟩

/-- C1 witness: on `dbC1` the pair (user 1, movie 1) has implicit rating 3
(60 percent watched) and explicit rating 4; the matrix stores 4. -/
theorem explicit_overrides_implicit_witness : matVal dbC1 1 (movieKey 1) = 4 :=
  (explicit_overrides_implicit dbC1).1 1 1 4 (by decide) (by decide)

/-! ### Zero similarity sum falls back to popularity (C7) -/

/-- C7: in the warm path of `UnifiedCollaborativeFilter.recommend` (matrix
nonempty, user present), a zero sum over the selected neighbour similarities
makes `recommend` return the popularity fallback; the division by the
similarity sum is only reached under the guard `sum ≠ 0`, so the degenerate
case never surfaces as an error. -/
theorem zero_sim_sum_popular (sq : ℚ → ℚ) (db : DB) (user top_n : ℕ)
    (h1 : rowsFor db ≠ []) (h2 : user ∈ matUsers db)
    (h3 : (simWeights sq db user).sum = 0) :
    collabRecommend sq db user top_n = popularList db top_n := by
  unfold collabRecommend
  rw [if_neg h1, if_neg (not_not.mpr h2), if_pos h3]

/-- Two users with disjoint watched movies: all cross similarities are 0. -/
def dbC7 : DB := ⟨[], [], [], [], [⟨1, 1, 95⟩, ⟨2, 2, 95⟩], [], [], []⟩

theorem implicitRating_95 : implicitRating 95 = 5 := by norm_num [implicitRating]

theorem dbC7_rows : rowsFor dbC7 = [(1, movieKey 1, 5), (2, movieKey 2, 5)] := by
  simp only [rowsFor, dbC7, seriesGroupKeys, seriesWatchGroups, epToSeries,
    nubFirst, nubFirstBy, nubFirstAux, List.filterMap_nil, List.map_nil, List.map_cons,
    List.append_nil, List.nil_append]
  rw [implicitRating_95]

theorem dbC7_dedup : dedupRows dbC7 = [(1, movieKey 1, 5), (2, movieKey 2, 5)] := by
  simp [dedupRows, keepLastBy, nubFirstBy, nubFirstAux, dbC7_rows, implicitRating_95]

theorem dbC7_users : matUsers dbC7 = [1, 2] := by
  norm_num [matUsers, dbC7_dedup, nubFirst, nubFirstBy, nubFirstAux, sortBy, insertBy]

theorem dbC7_items : matItems dbC7 = [movieKey 1, movieKey 2] := by
  norm_num [matItems, dbC7_dedup, nubFirst, nubFirstBy, nubFirstAux, sortBy, insertBy,
    show strLe (movieKey 1) (movieKey 2) from by decide,
    show movieKey 2 ≠ movieKey 1 from by decide]

theorem dbC7_vals : matVal dbC7 1 (movieKey 1) = 5 ∧ matVal dbC7 1 (movieKey 2) = 0
    ∧ matVal dbC7 2 (movieKey 1) = 0 ∧ matVal dbC7 2 (movieKey 2) = 5 := by
  refine ⟨?_, ?_, ?_, ?_⟩ <;>
    norm_num [matVal_eq_lastRow, dbC7_rows,
      show movieKey 2 ≠ movieKey 1 from by decide,
      show movieKey 1 ≠ movieKey 2 from by decide]

theorem dbC7_rowVec1 : rowVec dbC7 1 = [5, 0] := by
  norm_num [rowVec, dbC7_items, dbC7_vals.1, dbC7_vals.2.1]

theorem dbC7_rowVec2 : rowVec dbC7 2 = [0, 5] := by
  norm_num [rowVec, dbC7_items, dbC7_vals.2.2.1, dbC7_vals.2.2.2]

theorem dbC7_sims : simsRow tableSqrt dbC7 1 = [1, 0] := by
  norm_num [simsRow, dbC7_users, dbC7_rowVec1, dbC7_rowVec2, cosSim, dotQ, tableSqrt]

theorem dbC7_weightSum : (simWeights tableSqrt dbC7 1).sum = 0 := by
  norm_num [simWeights, similarIdx, dbC7_sims, argsortAsc, sortBy, insertBy, ltTieIdx,
    List.range_succ]

/-- C7 witness: on `dbC7` the sole neighbour of user 1 has similarity 0, so
`recommend` returns the popularity fallback. -/
theorem zero_sim_sum_popular_witness :
    collabRecommend tableSqrt dbC7 1 10 = popularList dbC7 10 :=
  zero_sim_sum_popular tableSqrt dbC7 1 10
    (by rw [dbC7_rows]; simp)
    (by rw [dbC7_users]; simp)
    dbC7_weightSum

/-! ### Provenance of the partitioned output (C5, C2) -/

theorem partitionStep_fst (db : DB) (reason : String) (k : String) (sc : ℚ)
    (ms ss : List RecEntry) (e : RecEntry)
    (he : e ∈ (partitionStep db reason k sc ms ss).1) :
    e ∈ ms ∨ (startsWith "movie_" k ∧ e.key = k ∧ e.id = parseId k ∧
      e.score = round3 sc ∧ e.reason = reason) := by
  unfold partitionStep at he
  split_ifs at he with h1 h2
  · cases hfm : findReadyMovie db (parseId k) with
    | none => rw [hfm] at he; exact Or.inl he
    | some m =>
      have hid : m.id = parseId k := by
        have h := List.find?_some hfm
        simp only [Bool.and_eq_true, decide_eq_true_eq] at h
        exact h.1
      rw [hfm] at he
      rcases List.mem_append.mp he with he | he
      · exact Or.inl he
      · simp only [List.mem_singleton] at he
        subst he
        exact Or.inr ⟨h1, rfl, hid, rfl, rfl⟩
  · cases hfs : findActiveSeries db (parseId k) with
    | none => rw [hfs] at he; exact Or.inl he
    | some s => rw [hfs] at he; exact Or.inl he
  · exact Or.inl he

theorem partitionStep_snd (db : DB) (reason : String) (k : String) (sc : ℚ)
    (ms ss : List RecEntry) (e : RecEntry)
    (he : e ∈ (partitionStep db reason k sc ms ss).2) :
    e ∈ ss ∨ (startsWith "series_" k ∧ e.key = k ∧ e.id = parseId k ∧
      e.score = round3 sc ∧ e.reason = reason) := by
  unfold partitionStep at he
  split_ifs at he with h1 h2
  · cases hfm : findReadyMovie db (parseId k) with
    | none => rw [hfm] at he; exact Or.inl he
    | some m => rw [hfm] at he; exact Or.inl he
  · cases hfs : findActiveSeries db (parseId k) with
    | none => rw [hfs] at he; exact Or.inl he
    | some s =>
      have hid : s.id = parseId k := by
        have h := List.find?_some hfs
        simp only [Bool.and_eq_true, decide_eq_true_eq] at h
        exact h.1
      rw [hfs] at he
      rcases List.mem_append.mp he with he | he
      · exact Or.inl he
      · simp only [List.mem_singleton] at he
        subst he
        exact Or.inr ⟨h2, rfl, hid, rfl, rfl⟩
  · exact Or.inl he

theorem partitionLoop_spec (db : DB) (reason : String) (top_n : ℕ) :
    ∀ (l : List (String × ℚ)) (ms ss : List RecEntry),
      (∀ e ∈ (partitionLoop db reason top_n l ms ss).1,
        e ∈ ms ∨ ∃ k sc, (k, sc) ∈ l ∧ startsWith "movie_" k ∧ e.key = k ∧
          e.id = parseId k ∧ e.score = round3 sc ∧ e.reason = reason) ∧
      (∀ e ∈ (partitionLoop db reason top_n l ms ss).2,
        e ∈ ss ∨ ∃ k sc, (k, sc) ∈ l ∧ startsWith "series_" k ∧ e.key = k ∧
          e.id = parseId k ∧ e.score = round3 sc ∧ e.reason = reason) := by
  intro l
  induction l with
  | nil =>
    intro ms ss
    constructor <;> (intro e he; exact Or.inl (by simpa [partitionLoop] using he))
  | cons hd rest ih =>
    intro ms ss
    obtain ⟨k, sc⟩ := hd
    have hstep1 := partitionStep_fst db reason k sc ms ss
    have hstep2 := partitionStep_snd db reason k sc ms ss
    constructor <;> intro e he
    · rw [partitionLoop] at he
      by_cases hstop : top_n ≤ (partitionStep db reason k sc ms ss).1.length ∧
          top_n ≤ (partitionStep db reason k sc ms ss).2.length
      · rw [if_pos hstop] at he
        rcases hstep1 e he with h | h
        · exact Or.inl h
        · exact Or.inr ⟨k, sc, List.mem_cons_self _ _, h.1, h.2.1, h.2.2.1, h.2.2.2.1, h.2.2.2.2⟩
      · rw [if_neg hstop] at he
        rcases ((ih _ _).1 e he) with h | ⟨k2, sc2, hmem, hrest⟩
        · rcases hstep1 e h with h | h
          · exact Or.inl h
          · exact Or.inr ⟨k, sc, List.mem_cons_self _ _, h.1, h.2.1, h.2.2.1, h.2.2.2.1, h.2.2.2.2⟩
        · exact Or.inr ⟨k2, sc2, List.mem_cons_of_mem _ hmem, hrest⟩
    · rw [partitionLoop] at he
      by_cases hstop : top_n ≤ (partitionStep db reason k sc ms ss).1.length ∧
          top_n ≤ (partitionStep db reason k sc ms ss).2.length
      · rw [if_pos hstop] at he
        rcases hstep2 e he with h | h
        · exact Or.inl h
        · exact Or.inr ⟨k, sc, List.mem_cons_self _ _, h.1, h.2.1, h.2.2.1, h.2.2.2.1, h.2.2.2.2⟩
      · rw [if_neg hstop] at he
        rcases ((ih _ _).2 e he) with h | ⟨k2, sc2, hmem, hrest⟩
        · rcases hstep2 e h with h | h
          · exact Or.inl h
          · exact Or.inr ⟨k, sc, List.mem_cons_self _ _, h.1, h.2.1, h.2.2.1, h.2.2.2.1, h.2.2.2.2⟩
        · exact Or.inr ⟨k2, sc2, List.mem_cons_of_mem _ hmem, hrest⟩

theorem hybrid_movies_eq (sq : ℚ → ℚ) (db : DB) (st : ContentState) (user top_n : ℕ) :
    (hybridRecommend sq db st user top_n).movies =
      ((partitionLoop db (reasonOf db user) top_n
        (sortScoreDesc (combinedOf sq db st user top_n)) [] []).1).take top_n := rfl

theorem hybrid_series_eq (sq : ℚ → ℚ) (db : DB) (st : ContentState) (user top_n : ℕ) :
    (hybridRecommend sq db st user top_n).series =
      ((partitionLoop db (reasonOf db user) top_n
        (sortScoreDesc (combinedOf sq db st user top_n)) [] []).2).take top_n := rfl

theorem hybrid_movies_prov (sq : ℚ → ℚ) (db : DB) (st : ContentState) (user top_n : ℕ)
    (e : RecEntry) (he : e ∈ (hybridRecommend sq db st user top_n).movies) :
    startsWith "movie_" e.key ∧ e.id = parseId e.key ∧ e.reason = reasonOf db user ∧
      ∃ sc, (e.key, sc) ∈ combinedOf sq db st user top_n ∧ e.score = round3 sc := by
  rw [hybrid_movies_eq] at he
  have he2 := List.mem_of_mem_take he
  rcases (partitionLoop_spec db (reasonOf db user) top_n
      (sortScoreDesc (combinedOf sq db st user top_n)) [] []).1 e he2 with h | ⟨k, sc, hmem, hpre, hkey, hid, hsc, hrsn⟩
  · exact absurd h (List.not_mem_nil e)
  · subst hkey
    exact ⟨hpre, hid, hrsn, sc, (mem_sortBy _ _ _).mp hmem, hsc⟩

theorem hybrid_series_prov (sq : ℚ → ℚ) (db : DB) (st : ContentState) (user top_n : ℕ)
    (e : RecEntry) (he : e ∈ (hybridRecommend sq db st user top_n).series) :
    startsWith "series_" e.key ∧ e.id = parseId e.key ∧ e.reason = reasonOf db user ∧
      ∃ sc, (e.key, sc) ∈ combinedOf sq db st user top_n ∧ e.score = round3 sc := by
  rw [hybrid_series_eq] at he
  have he2 := List.mem_of_mem_take he
  rcases (partitionLoop_spec db (reasonOf db user) top_n
      (sortScoreDesc (combinedOf sq db st user top_n)) [] []).2 e he2 with h | ⟨k, sc, hmem, hpre, hkey, hid, hsc, hrsn⟩
  · exact absurd h (List.not_mem_nil e)
  · subst hkey
    exact ⟨hpre, hid, hrsn, sc, (mem_sortBy _ _ _).mp hmem, hsc⟩

/-- C5: the output of `UnifiedHybridRecommender.recommend` is strictly
partitioned by item-key namespace: every entry of the movies list was
produced from a combined-dict key with the `movie_` prefix (its id is the
parsed suffix of that key), every entry of the series list from a key with
the `series_` prefix, no key contributes to both lists, and each list
independently holds at most `top_n` entries. -/
theorem unified_partition (sq : ℚ → ℚ) (db : DB) (st : ContentState) (user top_n : ℕ) :
    (∀ e ∈ (hybridRecommend sq db st user top_n).movies,
      startsWith "movie_" e.key ∧ e.id = parseId e.key ∧
        ∃ sc, (e.key, sc) ∈ combinedOf sq db st user top_n) ∧
    (∀ e ∈ (hybridRecommend sq db st user top_n).series,
      startsWith "series_" e.key ∧ e.id = parseId e.key ∧
        ∃ sc, (e.key, sc) ∈ combinedOf sq db st user top_n) ∧
    (∀ e ∈ (hybridRecommend sq db st user top_n).movies,
      ∀ e2 ∈ (hybridRecommend sq db st user top_n).series, e.key ≠ e2.key) ∧
    (hybridRecommend sq db st user top_n).movies.length ≤ top_n ∧
    (hybridRecommend sq db st user top_n).series.length ≤ top_n := by
  refine ⟨?_, ?_, ?_, ?_, ?_⟩
  · intro e he
    obtain ⟨h1, h2, _, sc, hmem, _⟩ := hybrid_movies_prov sq db st user top_n e he
    exact ⟨h1, h2, sc, hmem⟩
  · intro e he
    obtain ⟨h1, h2, _, sc, hmem, _⟩ := hybrid_series_prov sq db st user top_n e he
    exact ⟨h1, h2, sc, hmem⟩
  · intro e he e2 he2 hkeq
    obtain ⟨h1, -⟩ := hybrid_movies_prov sq db st user top_n e he
    obtain ⟨h2, -⟩ := hybrid_series_prov sq db st user top_n e2 he2
    exact not_startsWith_movie_series e.key ⟨h1, hkeq ▸ h2⟩
  · rw [hybrid_movies_eq]
    exact List.length_take_le _ _
  · rw [hybrid_series_eq]
    exact List.length_take_le _ _

/-- C2 (amended): when the user has fewer than five interactions the blender
takes the content-only path, but each combined score is the content score
multiplied by `CONTENT_WEIGHT = 0.3` — not the raw content score the spec
describes — and every returned entry carries the cold-start reason string. -/
theorem cold_path_weights (sq : ℚ → ℚ) (db : DB) (st : ContentState) (user top_n : ℕ)
    (h : totalWatch db user < 5) :
    ∀ e ∈ (hybridRecommend sq db st user top_n).movies
        ++ (hybridRecommend sq db st user top_n).series,
      e.reason = "Based on what you\x27ve watched" ∧
      ∃ v, (e.key, v) ∈ recommendForHistory sq st (watchedKeys db user) (top_n * 2) ∧
        e.score = round3 (v * CONTENT_WEIGHT) := by
  intro e he
  have hprov : e.reason = reasonOf db user ∧
      ∃ sc, (e.key, sc) ∈ combinedOf sq db st user top_n ∧ e.score = round3 sc := by
    rcases List.mem_append.mp he with he | he
    · obtain ⟨-, -, hrsn, sc, hmem, hsc⟩ := hybrid_movies_prov sq db st user top_n e he
      exact ⟨hrsn, sc, hmem, hsc⟩
    · obtain ⟨-, -, hrsn, sc, hmem, hsc⟩ := hybrid_series_prov sq db st user top_n e he
      exact ⟨hrsn, sc, hmem, hsc⟩
  obtain ⟨hrsn, sc, hmem, hsc⟩ := hprov
  constructor
  · rw [hrsn, reasonOf, if_pos h]
  · rw [combinedOf, if_pos h, coldCombined] at hmem
    rcases List.mem_map.mp hmem with ⟨p, hp, hpe⟩
    refine ⟨p.2, ?_, ?_⟩
    · have hk : e.key = p.1 := by
        have := congrArg Prod.fst hpe
        simpa using this.symm
      rw [hk]
      exact hp
    · have hv : sc = p.2 * CONTENT_WEIGHT := by
        have := congrArg Prod.snd hpe
        simpa using this.symm
      rw [hsc, hv]

/-! ### A concrete cold-start run of the blender (C2, C5)

Two ready movies with the identical one-term description text "zork"; the
TF-IDF rows of identical one-term texts are identical unit vectors, giving
the content state `stC2`.  User 1 has watched movie 1 only. -/

def dbC2 : DB :=
  ⟨[⟨1, "M1", "ready", none, 0, some "zork", none, none, []⟩,
    ⟨2, "M2", "ready", none, 0, some "zork", none, none, []⟩],
    [], [], [], [⟨1, 1, 50⟩], [], [], []⟩

def stC2 : ContentState := ⟨[movieKey 1, movieKey 2], [[1], [1]]⟩

theorem dbC2_total : totalWatch dbC2 1 = 1 := by
  norm_num [totalWatch, watchCount, epCount, dbC2]

theorem dbC2_watched : watchedKeys dbC2 1 = [movieKey 1] := by
  simp [watchedKeys, dbC2, nubFirst, nubFirstBy, nubFirstAux]

theorem dbC2_scores : historyScores tableSqrt stC2 [movieKey 1] = [(movieKey 2, 1)] := by
  rw [historyScores, show validIndices stC2 [movieKey 1] = [0] from by decide,
    show List.range stC2.item_ids.length = [0, 1] from by decide]
  have h0 : stC2.item_ids.getD 0 "" = movieKey 1 := by decide
  have h1 : stC2.item_ids.getD 1 "" = movieKey 2 := by decide
  have hv0 : stC2.vecs.getD 0 [] = [1] := by decide
  have hv1 : stC2.vecs.getD 1 [] = [1] := by decide
  simp only [List.filterMap_cons, List.filterMap_nil, List.map_cons, List.map_nil,
    h0, h1, hv0, hv1]
  simp only [List.mem_cons, List.not_mem_nil, or_false,
    show ¬ (movieKey 2 = movieKey 1) from by decide, if_true, if_false, reduceIte]
  norm_num [cosSim, dotQ, tableSqrt, pyDict, dictUpsert]

theorem dbC2_crecs :
    recommendForHistory tableSqrt stC2 (watchedKeys dbC2 1) 20 = [(movieKey 2, 1)] := by
  rw [dbC2_watched, recommendForHistory, if_neg (by decide), if_neg (by decide), dbC2_scores]
  norm_num [sortScoreDesc, sortBy, insertBy]

theorem dbC2_combined :
    combinedOf tableSqrt dbC2 stC2 1 10 = [(movieKey 2, 3/10)] := by
  rw [combinedOf, if_pos (by rw [dbC2_total]; norm_num), coldCombined,
    show (10 * 2 : ℕ) = 20 from rfl, dbC2_crecs]
  norm_num [CONTENT_WEIGHT]

theorem dbC2_round3 : round3 (3/10) = 3/10 :=
  round3_intMul (3/10) 300 (by norm_num)

theorem dbC2_hybrid : hybridRecommend tableSqrt dbC2 stC2 1 10 =
    ⟨[⟨movieKey 2, 2, "M2", none, 3/10, "Based on what you\x27ve watched"⟩], []⟩ := by
  unfold hybridRecommend
  rw [dbC2_combined]
  rw [show reasonOf dbC2 1 = "Based on what you\x27ve watched" from by
    rw [reasonOf, if_pos (by rw [dbC2_total]; norm_num)]]
  simp only [sortScoreDesc, sortBy, List.foldr_cons, List.foldr_nil, insertBy]
  rw [partitionLoop]
  simp only [partitionStep, if_pos (show startsWith "movie_" (movieKey 2) from by decide),
    show parseId (movieKey 2) = 2 from by decide]
  rw [show findReadyMovie dbC2 2 =
      some ⟨2, "M2", "ready", none, 0, some "zork", none, none, []⟩ from by decide]
  simp only [dbC2_round3]
  rw [if_neg (by simp)]
  rw [partitionLoop]
  rfl

/-- C2 (counterexample to the claim as stated): on `dbC2` user 1 has one
interaction (cold path), the content engine scores `movie_2` at 1, but the
combined score is 0.3 — the cold path multiplies by `CONTENT_WEIGHT`, not
by 1.0. -/
theorem cold_weight_counterexample :
    totalWatch dbC2 1 < 5 ∧
    recommendForHistory tableSqrt stC2 (watchedKeys dbC2 1) 20 = [(movieKey 2, 1)] ∧
    combinedOf tableSqrt dbC2 stC2 1 10 = [(movieKey 2, 3/10)] ∧
    (3/10 : ℚ) ≠ 1 :=
  ⟨by rw [dbC2_total]; norm_num, dbC2_crecs, dbC2_combined, by norm_num⟩

/-- C2 witness: the single returned entry of the cold run on `dbC2` carries
the cold-start reason and the 0.3-weighted content score. -/
theorem cold_path_weights_witness :
    (⟨movieKey 2, 2, "M2", none, 3/10,
        "Based on what you\x27ve watched"⟩ : RecEntry).reason
      = "Based on what you\x27ve watched" ∧
    ∃ v, ((⟨movieKey 2, 2, "M2", none, 3/10,
        "Based on what you\x27ve watched"⟩ : RecEntry).key, v)
        ∈ recommendForHistory tableSqrt stC2 (watchedKeys dbC2 1) (10 * 2) ∧
      (⟨movieKey 2, 2, "M2", none, 3/10,
        "Based on what you\x27ve watched"⟩ : RecEntry).score
        = round3 (v * CONTENT_WEIGHT) :=
  cold_path_weights tableSqrt dbC2 stC2 1 10
    (by rw [dbC2_total]; norm_num) _ (by rw [dbC2_hybrid]; simp)

/-- C5 witness: the single movie entry of the cold run on `dbC2` satisfies
the partition invariant. -/
theorem unified_partition_witness :
    startsWith "movie_" (⟨movieKey 2, 2, "M2", none, 3/10,
        "Based on what you\x27ve watched"⟩ : RecEntry).key ∧
    (⟨movieKey 2, 2, "M2", none, 3/10,
        "Based on what you\x27ve watched"⟩ : RecEntry).id
      = parseId (⟨movieKey 2, 2, "M2", none, 3/10,
        "Based on what you\x27ve watched"⟩ : RecEntry).key ∧
    ∃ sc, ((⟨movieKey 2, 2, "M2", none, 3/10,
        "Based on what you\x27ve watched"⟩ : RecEntry).key, sc)
        ∈ combinedOf tableSqrt dbC2 stC2 1 10 :=
  (unified_partition tableSqrt dbC2 stC2 1 10).1 _ (by rw [dbC2_hybrid]; simp)

/-! ### The argsort self-exclusion bug (C4, C8) -/

theorem stC2_simRow : simRowOf tableSqrt stC2 (movieKey 1) = [1, 1] := by
  rw [simRowOf, show stC2.item_ids.indexOf (movieKey 1) = 0 from by decide,
    show stC2.vecs.getD 0 [] = [1] from by decide,
    show stC2.vecs = [[(1 : ℚ)], [1]] from rfl]
  norm_num [cosSim, dotQ, tableSqrt]

/-- C4: `get_similar` is meant to exclude the queried item itself (the spec
says so, and the sibling implementation in content_based.py carries the
comment "excluding self" over the same `argsort()[::-1][1:...]` idiom).  On
a state with two identical feature rows — two catalog items with the same
metadata text, here the state TF-IDF gives `dbC2` — the query key ties with
the other item at similarity 1, the slice drops the *other* item, and
`get_similar("movie_1")` returns `movie_1` itself. -/
theorem get_similar_includes_self :
    getSimilar tableSqrt stC2 (movieKey 1) 5 = [(movieKey 1, 1)] := by
  rw [getSimilar, if_neg (by decide), stC2_simRow]
  rw [show argsortAsc [(1 : ℚ), 1] = [0, 1] from by
    norm_num [argsortAsc, sortBy, insertBy, ltTieIdx, List.range_succ]]
  norm_num
  decide

/-- Series 1 and 2 are active with the same one-term description; series 1
has a single season with a single ready episode.  `stC8` is the content
state TF-IDF builds from the two identical texts. -/
def dbC8 : DB :=
  ⟨[],
    [⟨1, "S1", "active", none, some "zork", none, none⟩,
     ⟨2, "S2", "active", none, some "zork", none, none⟩],
    [⟨1, 1, 1⟩],
    [⟨1, 1, 1, "E1", "ready"⟩],
    [], [], [], []⟩

def stC8 : ContentState := ⟨[seriesKey 1, seriesKey 2], [[1], [1]]⟩

theorem stC8_simRow : simRowOf tableSqrt stC8 (seriesKey 1) = [1, 1] := by
  rw [simRowOf, show stC8.item_ids.indexOf (seriesKey 1) = 0 from by decide,
    show stC8.vecs.getD 0 [] = [1] from by decide,
    show stC8.vecs = [[(1 : ℚ)], [1]] from rfl]
  norm_num [cosSim, dotQ, tableSqrt]

theorem stC8_getSimilar :
    getSimilar tableSqrt stC8 (seriesKey 1) 5 = [(seriesKey 1, 1)] := by
  rw [getSimilar, if_neg (by decide), stC8_simRow]
  rw [show argsortAsc [(1 : ℚ), 1] = [0, 1] from by
    norm_num [argsortAsc, sortBy, insertBy, ltTieIdx, List.range_succ]]
  norm_num
  decide

theorem dbC8_hybrid : hybridRecommend tableSqrt dbC8 stC8 7 3 = ⟨[], []⟩ := by
  unfold hybridRecommend
  rw [show combinedOf tableSqrt dbC8 stC8 7 3 = [] from by
    rw [combinedOf, if_pos (by norm_num [totalWatch, watchCount, epCount, dbC8]),
      coldCombined,
      show watchedKeys dbC8 7 = [] from by
        simp [watchedKeys, dbC8, nubFirst, nubFirstBy, nubFirstAux],
      recommendForHistory, if_pos (Or.inl rfl)]
    rfl]
  rfl

theorem round3_one : round3 1 = 1 := round3_intMul 1 1000 (by norm_num)

theorem dbC8_similar : similarSeries tableSqrt dbC8 stC8 1 7 = [⟨1, "S1", none, 1⟩] := by
  rw [similarSeries, stC8_getSimilar, dbC8_hybrid]
  simp only [List.filterMap_cons, List.filterMap_nil,
    show startsWith "series_" (seriesKey 1) from by decide, if_true,
    show parseId (seriesKey 1) = 1 from by decide,
    show findActiveSeries dbC8 1 =
      some ⟨1, "S1", "active", none, some "zork", none, none⟩ from by decide,
    Option.map_some, round3_one, List.foldl_nil, List.take, reduceIte]

theorem dbC8_next : nextForEpisode tableSqrt dbC8 stC8 1 7 =
    .seriesRecRes "You finished S1! Here\x27s what to watch next:"
      [⟨1, "S1", none, 1⟩] := by
  rw [nextForEpisode,
    show dbC8.episodes.find? (fun e => decide (e.id = 1)) =
      some ⟨1, 1, 1, "E1", "ready"⟩ from by decide]
  simp only
  rw [show dbC8.seasons.find? (fun s => decide (s.id = (⟨1, 1, 1, "E1", "ready"⟩ :
      Episode).season_id)) = some ⟨1, 1, 1⟩ from by decide]
  simp only
  rw [show dbC8.episodes.find? (fun e => decide (e.season_id = (⟨1, 1, 1⟩ : Season).id)
      && decide (e.episode_number = (⟨1, 1, 1, "E1", "ready"⟩ : Episode).episode_number + 1)
      && decide (e.status = "ready")) = none from by decide]
  simp only
  rw [show dbC8.seasons.find? (fun s =>
      decide (s.series_id = (⟨1, 1, 1⟩ : Season).series_id)
      && decide (s.season_number = (⟨1, 1, 1⟩ : Season).season_number + 1)) = none
    from by decide]
  simp only [seriesFinale, dbC8_similar,
    show dbC8.series.find? (fun s => decide (s.id = (⟨1, 1, 1⟩ : Season).series_id)) =
      some ⟨1, "S1", "active", none, some "zork", none, none⟩ from by decide]
  decide

/-- C8: user 7 finishes the only ready episode of the single-season series 1
in `dbC8`; the resolver reaches the series-recommendation branch, but —
through the `get_similar` self-inclusion above (series 2 has the identical
metadata text) and the missing self-check in the content half of
`_similar_series` — the items list contains the finished series 1 itself,
contradicting "never contains X". -/
theorem series_recommendation_contains_self :
    (nextForEpisode tableSqrt dbC8 stC8 1 7).rtype = "series_recommendation" ∧
    (nextForEpisode tableSqrt dbC8 stC8 1 7).items.map (fun x => x.series_id) = [1] := by
  rw [dbC8_next]
  exact ⟨rfl, rfl⟩

/-! ### Missing episode versus legitimate empty result (C3) -/

/-- C3 (amended): a missing episode id makes `next_for_episode` return the
dict `{"type": "none", "reason": "Episode not found"}` — the *same* type
value `"none"` that a legitimate empty recommendation carries; the two
outcomes are distinguishable only by the reason string. -/
theorem missing_episode_none (sq : ℚ → ℚ) (db : DB) (st : ContentState) (eid uid : ℕ)
    (h : db.episodes.find? (fun e => decide (e.id = eid)) = none) :
    nextForEpisode sq db st eid uid = .noneRes "Episode not found" := by
  rw [nextForEpisode, h]

def dbC3 : DB := ⟨[], [], [], [], [], [], [], []⟩

def stC3 : ContentState := ⟨[], []⟩

theorem dbC3_hybrid : hybridRecommend tableSqrt dbC3 stC3 1 5 = ⟨[], []⟩ := by
  unfold hybridRecommend
  rw [show combinedOf tableSqrt dbC3 stC3 1 5 = [] from by
    rw [combinedOf, if_pos (by norm_num [totalWatch, watchCount, epCount, dbC3]),
      coldCombined,
      show watchedKeys dbC3 1 = [] from by
        simp [watchedKeys, dbC3, nubFirst, nubFirstBy, nubFirstAux],
      recommendForHistory, if_pos (Or.inl rfl)]
    rfl]
  rfl

/-- C3 (counterexample to the claim as stated): on the empty catalog the
missing episode id 999 is reported with type value `"none"` — exactly the
type value of the legitimate empty recommendation of `next_for_movie` — so
the failure is *not* reported under a type distinguishable from `"none"`. -/
theorem none_type_collision :
    (nextForEpisode tableSqrt dbC3 stC3 999 1).rtype = "none" ∧
    (nextForEpisode tableSqrt dbC3 stC3 999 1).reason = "Episode not found" ∧
    (nextForMovie tableSqrt dbC3 stC3 1 1).rtype = "none" ∧
    (nextForMovie tableSqrt dbC3 stC3 1 1).reason = "No recommendations available" := by
  have h1 : nextForEpisode tableSqrt dbC3 stC3 999 1 = .noneRes "Episode not found" := by
    rw [nextForEpisode]
    rfl
  have h2 : nextForMovie tableSqrt dbC3 stC3 1 1 = .noneRes "No recommendations available" := by
    rw [nextForMovie, dbC3_hybrid]
    simp only
    rw [getSimilar, if_pos (by decide)]
    rfl
  rw [h1, h2]
  exact ⟨rfl, rfl, rfl, rfl⟩

/-- C3 witness: the amended statement at the concrete empty catalog. -/
theorem missing_episode_none_witness :
    nextForEpisode tableSqrt dbC3 stC3 999 1 = .noneRes "Episode not found" :=
  missing_episode_none tableSqrt dbC3 stC3 999 1 (by decide)

/-! ### The featurizer text (C9) -/

/-- A single active series with description "a", director "b", cast "c". -/
def dbC9 : DB :=
  ⟨[], [⟨1, "S", "active", none, some "a", some "b", some "c"⟩], [], [], [], [], [], []⟩

/-- C9 (counterexample to the claim as stated): the feature text `build`
produces for the series of `dbC9` is `"a b c"` — description, director,
cast only — and no genre text whatever (not even an empty one) makes it of
the claimed shape `genre genre description director cast`, since that shape
always carries the two extra separator slots: series have no genre link and
their branch of `build` omits the genre duplication entirely. -/
theorem series_feature_text_counterexample :
    featureTexts dbC9 = [(seriesKey 1, "a b c")] ∧
    ¬ ∃ gtext, "a b c" = specFeatureText gtext "a" "b" "c" := by
  constructor
  · decide
  · rintro ⟨g, hg⟩
    have hlen := congrArg String.length hg
    simp only [specFeatureText, String.length_append] at hlen
    rw [show ("a b c" : String).length = 5 from by decide,
      show ("a" : String).length = 1 from by decide,
      show ("b" : String).length = 1 from by decide,
      show ("c" : String).length = 1 from by decide,
      show (" " : String).length = 1 from by decide] at hlen
    omega

/-- C9 (amended): every ready movie is vectorized from the text
`genre genre description director cast` (genre terms twice), but every
active series is vectorized from `description director cast` only — the
series model has no genre link and its branch of `build` has no genre
component at all. -/
theorem feature_text_shape (db : DB) :
    ∀ p ∈ featureTexts db,
      (∃ m ∈ db.movies, m.status = "ready" ∧
        p = (movieKey m.id, specFeatureText (joinSpace m.genres) (orEmpty m.description)
          (orEmpty m.director) (orEmpty m.cast))) ∨
      (∃ s ∈ db.series, s.status = "active" ∧
        p = (seriesKey s.id,
          orEmpty s.description ++ " " ++ orEmpty s.director ++ " " ++ orEmpty s.cast)) := by
  intro p hp
  rcases List.mem_append.mp hp with hp | hp
  · rcases List.mem_map.mp hp with ⟨m, hm, rfl⟩
    rcases List.mem_filter.mp hm with ⟨hmem, hstat⟩
    exact Or.inl ⟨m, hmem, by simpa using hstat, rfl⟩
  · rcases List.mem_map.mp hp with ⟨s, hs, rfl⟩
    rcases List.mem_filter.mp hs with ⟨hmem, hstat⟩
    exact Or.inr ⟨s, hmem, by simpa using hstat, rfl⟩

/-- C9 witness: the amended statement at the concrete `dbC9` entry. -/
theorem feature_text_shape_witness :
    (∃ m ∈ dbC9.movies, m.status = "ready" ∧
      ((seriesKey 1, "a b c") : String × String)
        = (movieKey m.id, specFeatureText (joinSpace m.genres) (orEmpty m.description)
          (orEmpty m.director) (orEmpty m.cast))) ∨
    (∃ s ∈ dbC9.series, s.status = "active" ∧
      ((seriesKey 1, "a b c") : String × String)
        = (seriesKey s.id,
          orEmpty s.description ++ " " ++ orEmpty s.director ++ " " ++ orEmpty s.cast)) :=
  feature_text_shape dbC9 (seriesKey 1, "a b c") (by decide)

/-! ### Succession is exact +1 arithmetic (C10) -/

theorem mem_of_headOpt {α : Type} {l : List α} {a : α} (h : l.head? = some a) : a ∈ l := by
  cases l with
  | nil => simp at h
  | cons x xs =>
    simp only [List.head?_cons, Option.some.injEq] at h
    exact h ▸ List.mem_cons_self x xs

/-- C10: for a finishing episode the resolver only ever returns a ready
episode whose episode_number is exactly one above the finished one in the
same season, or an episode of a season whose season_number is exactly one
above; and when neither an exact `episode_number + 1` ready episode nor an
exact `season_number + 1` season exists — in particular when the numbering
has a gap — it proceeds to the series-recommendation branch, never returning
a later-numbered episode or season. -/
theorem play_next_plus_one (sq : ℚ → ℚ) (db : DB) (st : ContentState) (eid uid : ℕ)
    (ep : Episode) (sn : Season)
    (hep : db.episodes.find? (fun e => decide (e.id = eid)) = some ep)
    (hsn : db.seasons.find? (fun s => decide (s.id = ep.season_id)) = some sn) :
    ((∀ e ∈ db.episodes, ¬(e.season_id = sn.id ∧
        e.episode_number = ep.episode_number + 1 ∧ e.status = "ready")) →
      (∀ s ∈ db.seasons, ¬(s.series_id = sn.series_id ∧
        s.season_number = sn.season_number + 1)) →
      (nextForEpisode sq db st eid uid).rtype = "series_recommendation") ∧
    (∀ eid2 en snum t rsn,
      nextForEpisode sq db st eid uid = .episodeRes eid2 en snum t rsn →
      (∃ e ∈ db.episodes, e.season_id = sn.id ∧
        e.episode_number = ep.episode_number + 1 ∧ e.status = "ready" ∧
        en = e.episode_number ∧ snum = sn.season_number) ∨
      (∃ s ∈ db.seasons, s.series_id = sn.series_id ∧
        s.season_number = sn.season_number + 1 ∧ snum = s.season_number ∧
        ∃ e ∈ db.episodes, e.season_id = s.id ∧ e.status = "ready" ∧
          en = e.episode_number)) := by
  constructor
  · intro h1 h2
    rw [nextForEpisode, hep]
    simp only
    rw [hsn]
    simp only
    have hfind1 : db.episodes.find? (fun e => decide (e.season_id = sn.id)
        && decide (e.episode_number = ep.episode_number + 1)
        && decide (e.status = "ready")) = none := by
      rw [List.find?_eq_none]
      intro e he
      simp only [Bool.and_eq_true, decide_eq_true_eq]
      intro hc
      exact h1 e he ⟨hc.1.1, hc.1.2, hc.2⟩
    have hfind2 : db.seasons.find? (fun s => decide (s.series_id = sn.series_id)
        && decide (s.season_number = sn.season_number + 1)) = none := by
      rw [List.find?_eq_none]
      intro s hs
      simp only [Bool.and_eq_true, decide_eq_true_eq]
      intro hc
      exact h2 s hs ⟨hc.1, hc.2⟩
    rw [hfind1]
    simp only
    rw [hfind2]
    rfl
  · intro eid2 en snum t rsn heq
    rw [nextForEpisode, hep] at heq
    simp only at heq
    rw [hsn] at heq
    simp only at heq
    cases hf1 : db.episodes.find? (fun e => decide (e.season_id = sn.id)
        && decide (e.episode_number = ep.episode_number + 1)
        && decide (e.status = "ready")) with
    | some e =>
      rw [hf1] at heq
      simp only [PNResult.episodeRes.injEq] at heq
      have hprops := List.find?_some hf1
      simp only [Bool.and_eq_true, decide_eq_true_eq] at hprops
      exact Or.inl ⟨e, List.mem_of_find?_eq_some hf1, hprops.1.1, hprops.1.2, hprops.2,
        heq.2.1.symm, heq.2.2.1.symm⟩
    | none =>
      rw [hf1] at heq
      simp only at heq
      cases hf2 : db.seasons.find? (fun s => decide (s.series_id = sn.series_id)
          && decide (s.season_number = sn.season_number + 1)) with
      | some s =>
        rw [hf2] at heq
        simp only at heq
        cases hhead : (sortBy (fun a b : Episode => a.episode_number ≤ b.episode_number)
            (db.episodes.filter (fun e => decide (e.season_id = s.id)
              && decide (e.status = "ready")))).head? with
        | some fe =>
          rw [hhead] at heq
          simp only [PNResult.episodeRes.injEq] at heq
          have hfe : fe ∈ sortBy (fun a b : Episode => a.episode_number ≤ b.episode_number)
              (db.episodes.filter (fun e => decide (e.season_id = s.id)
                && decide (e.status = "ready"))) := mem_of_headOpt hhead
          have hmem := (mem_sortBy _ _ _).mp hfe
          have hfilter := List.mem_filter.mp hmem
          have hprops := hfilter.2
          simp only [Bool.and_eq_true, decide_eq_true_eq] at hprops
          have hsprops := List.find?_some hf2
          simp only [Bool.and_eq_true, decide_eq_true_eq] at hsprops
          exact Or.inr ⟨s, List.mem_of_find?_eq_some hf2, hsprops.1, hsprops.2,
            heq.2.2.1.symm, fe, hfilter.1, hprops.1, hprops.2, heq.2.1.symm⟩
        | none =>
          rw [hhead] at heq
          rw [seriesFinale] at heq
          exact PNResult.noConfusion heq
      | none =>
        rw [hf2] at heq
        rw [seriesFinale] at heq
        exact PNResult.noConfusion heq

/-- Episodes 3 and 5 exist in season 1 (numbers 3 and 5, no number 4) and
seasons 1 and 3 exist (no season 2). -/
def dbC10 : DB :=
  ⟨[], [], [⟨1, 1, 1⟩, ⟨3, 1, 3⟩],
    [⟨3, 1, 3, "E3", "ready"⟩, ⟨5, 1, 5, "E5", "ready"⟩], [], [], [], []⟩

/-- C10 witness: finishing episode 3 of `dbC10` (episode 4 missing, season 2
missing), the resolver skips the existing episode 5 and season 3 and goes to
the series-recommendation branch. -/
theorem play_next_plus_one_witness :
    (nextForEpisode tableSqrt dbC10 stC3 3 1).rtype = "series_recommendation" :=
  (play_next_plus_one tableSqrt dbC10 stC3 3 1 ⟨3, 1, 3, "E3", "ready"⟩ ⟨1, 1, 1⟩
    (by decide) (by decide)).1 (by decide) (by decide)

end StreamingVideo
